import Mathlib

/-!
Chat backend: connection registry, presence tracker, broadcaster, history fetch

A shallow embedding of `backend/handlers` (`utils.go`, `room.go`, `chat.go`,
`auth.go`).  Go maps are finite maps with distinct keys, Go `int` is `Int`,
a `*websocket.Conn` is a handle number, and the effects of a handler on the
package-level variables are explicit state passing.
-/

set_option autoImplicit false

namespace Chat

/-! ## Go maps -/

/-- Go `map[K]V`: a finite list of bindings with pairwise distinct keys.  The order of
`entries` is the order in which a `range` loop visits the map; Go leaves that order
unspecified, and every order is some value of this type. -/
structure GoMap (K : Type) (V : Type) where
  entries : List (K × V)
  nodupKeys : (entries.map Prod.fst).Nodup
deriving DecidableEq

namespace GoMap

variable {K V W : Type} [DecidableEq K]

/-- Go `make(map[K]V)`. -/
def empty : GoMap K V := ⟨[], List.nodup_nil⟩

/-- Keys in `range` order. -/
def keys (m : GoMap K V) : List K := m.entries.map Prod.fst

/-- Go `v, ok := m[k]`. -/
def lookup (m : GoMap K V) (k : K) : Option V :=
  (m.entries.find? (fun e => decide (e.1 = k))).map Prod.snd

/-- Go `delete(m, k)`. -/
def delete (m : GoMap K V) (k : K) : GoMap K V :=
  ⟨m.entries.filter (fun e => decide (e.1 ≠ k)),
    (List.Sublist.map Prod.fst (List.filter_sublist m.entries)).nodup m.nodupKeys⟩

/-- Go `m[k] = v`. -/
def insert (m : GoMap K V) (k : K) (v : V) : GoMap K V :=
  ⟨(k, v) :: m.entries.filter (fun e => decide (e.1 ≠ k)), by
    rw [List.map_cons]
    refine List.nodup_cons.2 ⟨?_, ?_⟩
    · intro h
      rcases List.mem_map.1 h with ⟨e, he, hk⟩
      have := (List.mem_filter.1 he).2
      simp [hk] at this
    · exact (List.Sublist.map Prod.fst (List.filter_sublist m.entries)).nodup m.nodupKeys⟩

/-- The effect of `for _, v := range m` when the body updates each value in place
(the values are themselves references, as with a map of maps). -/
def mapVals (f : V → W) (m : GoMap K V) : GoMap K W :=
  ⟨m.entries.map (fun e => (e.1, f e.2)), by
    have h : (m.entries.map (fun e => (e.1, f e.2))).map Prod.fst = m.entries.map Prod.fst := by
      simp [List.map_map, Function.comp_def]
    rw [h]; exact m.nodupKeys⟩

/-- An update through the reference stored under `k` (`delete(m[k], x)`, `m[k][x] = v`):
the value under `k` is replaced by `f` of it, the other bindings stay. -/
def modify (m : GoMap K V) (k : K) (f : V → V) : GoMap K V :=
  ⟨m.entries.map (fun e => if e.1 = k then (e.1, f e.2) else e), by
    have h : (m.entries.map (fun e => if e.1 = k then (e.1, f e.2) else e)).map Prod.fst
        = m.entries.map Prod.fst := by
      rw [List.map_map]
      apply List.map_congr_left
      intro e _
      by_cases hk : e.1 = k <;> simp [hk]
    rw [h]; exact m.nodupKeys⟩

end GoMap

/-! ## Presence (`utils.go`, lines 104-105 and 184-212) -/

/-- Go `roomPresenceMap : map[int]map[int]bool`, room to identity to flag. -/
abbrev PresenceMap := GoMap Int (GoMap Int Bool)

/-- The read of `room.go` lines 107-110: `false` when the room has no entry, else the
flag stored for the identity (`m[userID]`, `false` when absent). -/
def IsPresent (p : PresenceMap) (roomId userId : Int) : Bool :=
  match p.lookup roomId with
  | some m => (m.lookup userId).getD false
  | none => false

/-- Go `updatePresence(roomId, userId, action)`. -/
def updatePresence (roomId userId : Int) (action : String) (p : PresenceMap) : PresenceMap :=
  let p1 := match p.lookup roomId with
    | some _ => p
    | none => p.insert roomId GoMap.empty
  if action = "enter" then
    let p2 := p1.mapVals (fun members => members.delete userId)
    p2.modify roomId (fun members => members.insert userId true)
  else if action = "leave" then
    p1.modify roomId (fun members => members.delete userId)
  else p1

/-- Go `removeFromAllRooms(userId)`. -/
def removeFromAllRooms (userId : Int) (p : PresenceMap) : PresenceMap :=
  p.mapVals (fun members => members.delete userId)

/-- A call on the presence map: the two functions that write it. -/
inductive PresenceOp where
  | update (roomId userId : Int) (action : String)
  | removeAll (userId : Int)

/-- Run one presence call. -/
def PresenceOp.run : PresenceOp → PresenceMap → PresenceMap
  | .update r u a, p => updatePresence r u a p
  | .removeAll u, p => removeFromAllRooms u p

/-- Run a sequence of presence calls from the empty map of `utils.go` line 104. -/
def runPresence (ops : List PresenceOp) : PresenceMap :=
  ops.foldl (fun p op => op.run p) GoMap.empty

/-! ## Data types (`room.go` lines 15-26, `utils.go` lines 16-20, `auth.go` lines 24-27) -/

/-- Go `ChatMessage`.  A nil `Images` slice is the empty list. -/
structure ChatMessage where
  ID : Int
  Text : String
  Sender : String
  ReadCount : Int
  ReadStatus : String
  Images : List String
  RoomID : Int
  /-- Go field `Type`, a reserved word here. -/
  Type_ : String
  UserID : Int
  ClientID : String
deriving DecidableEq, Repr

/-- Go `Connection`.  `Conn` is the handle of the `*websocket.Conn`; a `*Connection` is
made once per handle (`utils.go` line 130), so pointer equality is equality of records. -/
structure Connection where
  Conn : Nat
  UserID : Int
  RoomID : Int
deriving DecidableEq, Repr

/-- Go `UserClaims`. -/
structure UserClaims where
  Username : String
  UserID : Int
deriving DecidableEq, Repr

/-- A decoded JSON value held in an `interface{}`.  A number is a finite `float64`, the
dyadic rational `m * 2 ^ e`; arrays and objects are `composite`, the code never looks
inside one. -/
inductive JSONValue where
  | null
  | bool (b : Bool)
  | float64 (m : Int) (e : Int)
  | string (s : String)
  | composite
deriving DecidableEq, Repr

/-- Go `int(v)` for a `float64`: truncation toward zero; a value outside the range of
`int` converts to `-9223372036854775808`, as on amd64. -/
def JSONValue.toInt (m e : Int) : Int :=
  let t := if 0 ≤ e then m * 2 ^ e.toNat else Int.tdiv m (2 ^ (-e).toNat)
  if -(2 ^ 63) ≤ t ∧ t < 2 ^ 63 then t else -(2 ^ 63)

/-- Go `map[string]interface{}`: a decoded JSON object, also `jwt.MapClaims`. -/
abbrev Frame := GoMap String JSONValue

/-- What `WriteJSON` is given: a `ChatMessage` (`room.go`) or a decoded frame (`utils.go`). -/
inductive Payload where
  | chat (msg : ChatMessage)
  | json (parsed : Frame)
deriving DecidableEq

/-! ## Package state -/

/-- The package-level variables of `handlers` and the observable effects on connections. -/
structure Server where
  /-- `roomClients` (`room.go` line 12). -/
  roomClients : GoMap Int (GoMap Nat Bool)
  /-- The events sent on the channel `broadcast` (`room.go` line 13) and not yet received,
  oldest first. -/
  broadcast : List ChatMessage
  /-- `roomConns` (`utils.go` line 23). -/
  roomConns : GoMap Int (List Connection)
  /-- `globalConns` (`utils.go` line 24). -/
  globalConns : List Connection
  /-- `roomPresenceMap` (`utils.go` line 104). -/
  roomPresenceMap : PresenceMap
  /-- Handles on which `Close` has been called, oldest first. -/
  closed : List Nat
  /-- Successful `WriteJSON` calls, oldest first. -/
  sent : List (Nat × Payload)
  /-- Arguments `(userID, roomID)` of the goroutines started at `room.go` line 113. -/
  readJobs : List (Int × Int)

/-- The state at process start. -/
def Server.init : Server :=
  { roomClients := GoMap.empty, broadcast := [], roomConns := GoMap.empty, globalConns := [],
    roomPresenceMap := GoMap.empty, closed := [], sent := [], readJobs := [] }

/-! ## Connection registry (`utils.go` lines 28-97) -/

/-- Go `AddRoomConnection`. -/
def AddRoomConnection (roomID : Int) (conn : Connection) (s : Server) : Server :=
  { s with roomConns :=
      s.roomConns.insert roomID (((s.roomConns.lookup roomID).getD []) ++ [conn]) }

/-- Go `RemoveRoomConnection`: the first element equal to `target` is cut out; with no
such element nothing is assigned. -/
def RemoveRoomConnection (roomID : Int) (target : Connection) (s : Server) : Server :=
  let conns := (s.roomConns.lookup roomID).getD []
  if conns.any (fun c => decide (c = target)) then
    { s with roomConns :=
        s.roomConns.insert roomID (conns.eraseP (fun c => decide (c = target))) }
  else s

/-- One `WriteJSON` on handle `conn`: `fails conn` says whether it returns an error; a
successful write is recorded. -/
def writeJSON (fails : Nat → Bool) (msg : Payload) (s : Server) (conn : Nat) : Server :=
  if fails conn then s else { s with sent := s.sent ++ [(conn, msg)] }

/-- Go `BroadcastToRoom`; `exclude` may be nil.  A write error is only logged. -/
def BroadcastToRoom (fails : Nat → Bool) (roomID : Int) (msg : Payload)
    (exclude : Option Connection) (s : Server) : Server :=
  let conns := (s.roomConns.lookup roomID).getD []
  conns.foldl (fun s c => if some c ≠ exclude then writeJSON fails msg s c.Conn else s) s

/-- Go `AddGlobalConnection`. -/
def AddGlobalConnection (conn : Connection) (s : Server) : Server :=
  { s with globalConns := s.globalConns ++ [conn] }

/-- Go `RemoveGlobalConnection`. -/
def RemoveGlobalConnection (target : Connection) (s : Server) : Server :=
  { s with globalConns := s.globalConns.eraseP (fun c => decide (c = target)) }

/-- Go `DisconnectExistingNotifyConnection`: the first connection of `userID` is closed
and cut out of `globalConns`, then the loop breaks. -/
def DisconnectExistingNotifyConnection (userID : Int) (s : Server) : Server :=
  match s.globalConns.find? (fun c => decide (c.UserID = userID)) with
  | some c =>
    { s with closed := s.closed ++ [c.Conn],
             globalConns := s.globalConns.eraseP (fun c => decide (c.UserID = userID)) }
  | none => s

/-- Go `BroadcastGlobal`.  A write error is only logged. -/
def BroadcastGlobal (fails : Nat → Bool) (msg : Payload) (s : Server) : Server :=
  s.globalConns.foldl (fun s c => writeJSON fails msg s c.Conn) s

/-- The install step of `NotifyWebSocketHandler`, lines 132-133. -/
def installGlobal (c : Connection) (s : Server) : Server :=
  AddGlobalConnection c (DisconnectExistingNotifyConnection c.UserID s)

/-- A call that writes the global registry: the install step or `RemoveGlobalConnection`. -/
inductive GlobalOp where
  | install (c : Connection)
  | remove (c : Connection)

/-- Run one call on the global registry. -/
def GlobalOp.run : GlobalOp → Server → Server
  | .install c, s => installGlobal c s
  | .remove c, s => RemoveGlobalConnection c s

/-- Run a sequence of global-registry calls from the state at process start. -/
def runGlobal (ops : List GlobalOp) : Server :=
  ops.foldl (fun s op => op.run s) Server.init

/-! ## Broadcaster (`room.go` lines 143-162) -/

/-- The body of `for conn := range clients` in `StartBroadcaster`: write, and on an error
close the connection and delete it from the room's set. -/
def broadcastConn (fails : Nat → Bool) (msg : ChatMessage) (s : Server) (conn : Nat) : Server :=
  if fails conn then
    { s with closed := s.closed ++ [conn],
             roomClients := s.roomClients.modify msg.RoomID (fun clients => clients.delete conn) }
  else { s with sent := s.sent ++ [(conn, Payload.chat msg)] }

/-- The body of `for msg := range broadcast` in `StartBroadcaster`.  The only deletion
during the `range` over `clients` is of the key being visited, so the loop visits the
keys the set had when it started, each once. -/
def broadcastEvent (fails : Nat → Bool) (msg : ChatMessage) (s : Server) : Server :=
  match s.roomClients.lookup msg.RoomID with
  | some clients => clients.keys.foldl (broadcastConn fails msg) s
  | none => s

/-- The loop of `StartBroadcaster` over the events received from the channel; `fails k`
is the write-error set while the `k`-th event is processed. -/
def drain (fails : Nat → Nat → Bool) : Nat → List ChatMessage → Server → Server
  | _, [], s => s
  | k, msg :: rest, s => drain fails (k + 1) rest (broadcastEvent (fails k) msg s)

/-- Go `StartBroadcaster`, run until the events sent so far are all received. -/
def StartBroadcaster (fails : Nat → Nat → Bool) (s : Server) : Server :=
  drain fails 0 s.broadcast { s with broadcast := [] }

/-- Go `BroadcastMessage`. -/
def BroadcastMessage (roomID : Int) (msg : ChatMessage) (s : Server) : Server :=
  { s with broadcast := s.broadcast ++ [{ msg with RoomID := roomID, Type_ := "message" }] }

/-! ## Token verification (`auth.go` lines 30-88) -/

/-- The value of a string of ASCII digits, `none` when a character is not a digit
(the loop of Go `strconv.Atoi` / `ParseUint` in base 10). -/
def digitsValue : List Char → Nat → Option Nat
  | [], n => some n
  | ch :: rest, n =>
    if '0' ≤ ch ∧ ch ≤ '9' then digitsValue rest (n * 10 + (ch.toNat - '0'.toNat)) else none

/-- Go `strconv.Atoi` on a 64-bit platform: an optional sign, then at least one decimal
digit and nothing else, the value within the range of `int`; `none` is an error. -/
def Atoi (str : String) : Option Int :=
  let cs := str.toList
  let neg := decide (cs.head? = some '-')
  let ds := if cs.head? = some '-' ∨ cs.head? = some '+' then cs.tail else cs
  if ds = [] then none
  else
    match digitsValue ds 0 with
    | none => none
    | some n =>
      if neg then (if n ≤ 2 ^ 63 then some (-(n : Int)) else none)
      else (if n < 2 ^ 63 then some (n : Int) else none)

/-- Go `validateJWTFromTokenString`.  `jwtParse` is `jwt.Parse` with the key function of
lines 48-53: the claims of a token that parses, is HMAC-signed with `jwtSecret` and is
valid, `none` when `err != nil || !token.Valid`. -/
def validateJWTFromTokenString (jwtParse : String → Option Frame) (tokenStr : String) :
    Except String UserClaims :=
  if tokenStr = "" then .error "トークンが空です"
  else
    match jwtParse tokenStr with
    | none => .error "トークンが無効です"
    | some claims =>
      match claims.lookup "username" with
      | some (JSONValue.string username) =>
        if username = "" then .error "トークンにusernameが含まれていません"
        else
          match claims.lookup "userId" with
          | some (JSONValue.float64 m e) =>
            .ok { Username := username, UserID := JSONValue.toInt m e }
          | some (JSONValue.string v) =>
            match Atoi v with
            | none => .error "userIdの形式が不正です"
            | some parsed => .ok { Username := username, UserID := parsed }
          | _ => .error "トークンにuserIdが含まれていません"
      | _ => .error "トークンにusernameが含まれていません"

/-- Go `strings.TrimPrefix`. -/
def TrimPrefix (str pre : String) : String :=
  if pre.toList.isPrefixOf str.toList then String.mk (str.toList.drop pre.toList.length)
  else str

/-- Go `validateJWT`, given the value of the `Authorization` header. -/
def validateJWT (jwtParse : String → Option Frame) (authHeader : String) :
    Except String UserClaims :=
  if authHeader = "" then .error "認証トークンがありません"
  else
    let tokenStr := TrimPrefix authHeader "Bearer "
    if tokenStr = authHeader then .error "bearer トークンの形式が不正です"
    else validateJWTFromTokenString jwtParse tokenStr

/-! ## WebSocket handlers (`room.go` lines 29-140, `utils.go` lines 107-182) -/

/-- What the handlers read from the `*http.Request`. -/
structure Request where
  /-- `r.URL.Query().Get("roomId")`. -/
  roomId : String
  /-- `r.Header.Get("Sec-WebSocket-Protocol")`. -/
  token : String

/-- How a handler call ended. -/
inductive Outcome where
  /-- HTTP 400, `roomId` is not an integer. -/
  | badRequest
  /-- HTTP 401 before the upgrade. -/
  | unauthorized
  /-- The upgrade returned an error. -/
  | upgradeFailed
  /-- Upgraded, then closed with close code `ClosePolicyViolation`. -/
  | policyViolation
  /-- The session was registered, its read loop ran and its deferred teardown ran. -/
  | served
deriving DecidableEq, Repr

/-- The body of the read loop of `HandleWebSocket` (lines 96-138) for one frame decoded
by `ReadJSON`. -/
def handleFrame (username : String) (userID roomID : Int) (s : Server) (frame : ChatMessage) :
    Server :=
  let msg := { frame with Sender := username, UserID := userID, RoomID := roomID }
  if msg.Type_ = "read" then
    { s with readJobs := s.readJobs ++ [(msg.UserID, msg.RoomID)],
             broadcast := s.broadcast ++ [{ msg with Text := "", Images := [] }] }
  else if msg.Type_ = "ping" then s
  else if msg.Type_ = "message" ∨ msg.Type_ = "" then
    { s with broadcast := s.broadcast ++ [msg] }
  else s

/-- Go `HandleWebSocket`.  `upgrade` is the handle `Upgrade` returns, `none` when it
fails; `frames` are the frames `ReadJSON` decodes before its first error, which ends the
loop. -/
def HandleWebSocket (jwtParse : String → Option Frame) (r : Request) (upgrade : Option Nat)
    (frames : List ChatMessage) (s : Server) : Outcome × Server :=
  match Atoi r.roomId with
  | none => (Outcome.badRequest, s)
  | some roomID =>
    if r.token = "" then (Outcome.unauthorized, s)
    else
      match upgrade with
      | none => (Outcome.upgradeFailed, s)
      | some conn =>
        match validateJWTFromTokenString jwtParse r.token with
        | .error _ => (Outcome.policyViolation, { s with closed := s.closed ++ [conn] })
        | .ok claims =>
          let rc := match s.roomClients.lookup roomID with
            | some _ => s.roomClients
            | none => s.roomClients.insert roomID GoMap.empty
          let s1 := { s with
            roomClients := rc.modify roomID (fun clients => clients.insert conn true) }
          let s2 := frames.foldl (handleFrame claims.Username claims.UserID roomID) s1
          (Outcome.served, { s2 with
            roomClients := s2.roomClients.modify roomID (fun clients => clients.delete conn),
            closed := s2.closed ++ [conn] })

/-- The body of the read loop of `NotifyWebSocketHandler` (lines 155-180) for one message;
`raw` is `none` when `json.Unmarshal` fails. -/
def notifyFrame (fails : Nat → Bool) (userID : Int) (s : Server) (raw : Option Frame) : Server :=
  match raw with
  | none => s
  | some parsed =>
    if parsed.lookup "type" = some (JSONValue.string "presence") then
      match parsed.lookup "roomId" with
      | some (JSONValue.float64 m e) =>
        let action := match parsed.lookup "action" with
          | some (JSONValue.string a) => a
          | _ => ""
        BroadcastGlobal fails (Payload.json parsed)
          { s with roomPresenceMap :=
              updatePresence (JSONValue.toInt m e) userID action s.roomPresenceMap }
      | _ => s
    else BroadcastGlobal fails (Payload.json parsed) s

/-- The read loop of `NotifyWebSocketHandler`; `fails k` is the write-error set during
the `k`-th message. -/
def notifyLoop (fails : Nat → Nat → Bool) (userID : Int) :
    Nat → List (Option Frame) → Server → Server
  | _, [], s => s
  | k, raw :: rest, s => notifyLoop fails userID (k + 1) rest (notifyFrame (fails k) userID s raw)

/-- Go `NotifyWebSocketHandler`.  `frames` are the messages `ReadMessage` returns before
its first error, which ends the loop. -/
def NotifyWebSocketHandler (jwtParse : String → Option Frame) (fails : Nat → Nat → Bool)
    (r : Request) (upgrade : Option Nat) (frames : List (Option Frame)) (s : Server) :
    Outcome × Server :=
  if r.token = "" then (Outcome.unauthorized, s)
  else
    match validateJWTFromTokenString jwtParse r.token with
    | .error _ => (Outcome.unauthorized, s)
    | .ok claims =>
      match upgrade with
      | none => (Outcome.upgradeFailed, s)
      | some conn =>
        let c : Connection := { Conn := conn, UserID := claims.UserID, RoomID := 0 }
        let s1 := AddGlobalConnection c (DisconnectExistingNotifyConnection claims.UserID s)
        let s2 := notifyLoop fails claims.UserID 0 frames s1
        let s3 := RemoveGlobalConnection c s2
        (Outcome.served, { s3 with
          roomPresenceMap := removeFromAllRooms claims.UserID s3.roomPresenceMap,
          closed := s3.closed ++ [conn] })

/-! ## Store and history fetch (`chat.go`) -/

/-- A row of table `users`. -/
structure UserRow where
  id : Int
  username : String
deriving DecidableEq, Repr

/-- A row of table `chat_rooms`. -/
structure ChatRoomRow where
  id : Int
  is_group : Int
deriving DecidableEq, Repr

/-- A row of table `messages`; `created_at` is a clock reading. -/
structure MessageRow where
  id : Int
  room_id : Int
  sender_id : Int
  content : String
  client_id : String
  created_at : Nat
deriving DecidableEq, Repr

/-- A row of table `message_attachments`. -/
structure AttachmentRow where
  message_id : Int
  file_name : String
deriving DecidableEq, Repr

/-- A row of table `message_reads`, a read receipt (the `read_at` time is left out). -/
structure ReadRow where
  message_id : Int
  user_id : Int
deriving DecidableEq, Repr

/-- The tables behind `DB` that `ChatHandler` reads and writes.  Every statement runs as
written and succeeds. -/
structure Store where
  users : List UserRow
  chat_rooms : List ChatRoomRow
  messages : List MessageRow
  message_attachments : List AttachmentRow
  message_reads : List ReadRow
deriving DecidableEq, Repr

/-- Go `contains`. -/
def contains : List Int → Int → Bool
  | [], _ => false
  | v :: rest, val => if v = val then true else contains rest val

/-- A row scanned at `chat.go` line 131. -/
structure HistoryRow where
  id : Int
  content : String
  username : String
  read_count : Int
  client_id : String
deriving DecidableEq, Repr

/-- The `FROM messages m JOIN users u ON m.sender_id = u.id WHERE m.room_id = $1
ORDER BY m.created_at ASC` part of the query of lines 106-117. -/
def historyJoin (db : Store) (roomID : Int) : List (MessageRow × UserRow) :=
  ((db.messages.filter (fun m => decide (m.room_id = roomID))).flatMap (fun m =>
    (db.users.filter (fun u => decide (m.sender_id = u.id))).map (fun u => (m, u)))).insertionSort
      (fun a b => a.1.created_at ≤ b.1.created_at)

/-- The query of lines 106-117: the select list over the joined rows; `read_count` is the
number of receipts of the message when the query runs. -/
def historyQuery (db : Store) (roomID : Int) : List HistoryRow :=
  (historyJoin db roomID).map (fun mu =>
    { id := mu.1.id, content := mu.1.content, username := mu.2.username,
      read_count := ((db.message_reads.filter
        (fun mr => decide (mr.message_id = mu.1.id))).length : Int),
      client_id := mu.1.client_id })

/-- The loop of lines 143-159 for message `messageID`: the entries of `roomUsers` for
which a receipt is inserted, in `range` order. -/
def newReaders (userID : Int) (roomUsers : GoMap Int Bool) (db : Store) (messageID : Int) :
    List (Int × Bool) :=
  let alreadyReadUserIDs := (db.message_reads.filter
    (fun mr => decide (mr.message_id = messageID))).map (fun mr => mr.user_id)
  roomUsers.entries.filter
    (fun e => decide (e.1 ≠ userID) && e.2 && !contains alreadyReadUserIDs e.1)

/-- The message that one pass of `for rows.Next()` (lines 130-181) appends to `messages`. -/
def historyMsg (username : String) (userID isGroup : Int) (roomUsers : GoMap Int Bool)
    (db : Store) (row : HistoryRow) : ChatMessage :=
  let images := (db.message_attachments.filter
    (fun a => decide (a.message_id = row.id))).map
      (fun a => "http://localhost:8080/uploads/" ++ a.file_name)
  let newlyAdded : Int := ((newReaders userID roomUsers db row.id).length : Int)
  let readCount := if newlyAdded > 0 then row.read_count + newlyAdded else row.read_count
  let readStatus :=
    if row.username = username ∧ isGroup = 0 then
      (if roomUsers.entries.any (fun e => decide (e.1 ≠ userID) && e.2) then "既読" else "未読")
    else if row.username ≠ username ∧ isGroup = 0 then "既読"
    else ""
  { ID := row.id, Text := row.content, Sender := row.username,
    ReadCount := readCount, ReadStatus := readStatus, Images := images,
    RoomID := 0, Type_ := "", UserID := 0, ClientID := row.client_id }

/-- One pass of `for rows.Next()` (lines 130-181): the message is appended and the
receipts of lines 155-156 are inserted. -/
def historyStep (username : String) (userID isGroup : Int) (roomUsers : GoMap Int Bool)
    (acc : List ChatMessage × Store) (row : HistoryRow) : List ChatMessage × Store :=
  let inserted : List ReadRow := (newReaders userID roomUsers acc.2 row.id).map
    (fun e => { message_id := row.id, user_id := e.1 })
  (acc.1 ++ [historyMsg username userID isGroup roomUsers acc.2 row],
   { acc.2 with message_reads := acc.2.message_reads ++ inserted })

/-- The `case http.MethodGet` branch of `ChatHandler` (lines 98-184), with `username`,
`userID` and `roomID` as lines 29-51 compute them.  The result is `none` when the room
has no row in `chat_rooms` (HTTP 500), else the encoded `messages`. -/
def ChatHandlerGET (username : String) (userID roomID : Int) (presence : PresenceMap)
    (db : Store) : Option (List ChatMessage) × Store :=
  match db.chat_rooms.find? (fun c => decide (c.id = roomID)) with
  | none => (none, db)
  | some room =>
    let rows := historyQuery db roomID
    let roomUsers := (presence.lookup roomID).getD GoMap.empty
    let out := rows.foldl (historyStep username userID room.is_group roomUsers) ([], db)
    (some out.1, out.2)

/-- The identities the claim counts for message `m` on a fetch of room `R` by `q`: those
other than `q` that are present in `R` and have no stored receipt for `m`. -/
def unreadPresent (presence : PresenceMap) (db : Store) (R q m : Int) : List Int :=
  ((presence.lookup R).getD GoMap.empty).keys.filter (fun p =>
    decide (p ≠ q) && IsPresent presence R p &&
      !db.message_reads.any (fun mr => decide (mr.message_id = m) && decide (mr.user_id = p)))

/-- A sample store: room 3 with two messages of user 7 and one of user 9, one receipt. -/
def sampleStore : Store :=
  { users := [⟨7, "alice"⟩, ⟨9, "bob"⟩, ⟨11, "carol"⟩],
    chat_rooms := [⟨3, 1⟩],
    messages := [⟨1, 3, 7, "hi", "c-1", 10⟩, ⟨2, 3, 9, "yo", "c-2", 30⟩,
      ⟨3, 3, 7, "again", "c-3", 20⟩, ⟨4, 5, 7, "elsewhere", "c-4", 5⟩],
    message_attachments := [⟨1, "a.png"⟩],
    message_reads := [⟨1, 9⟩] }

/-- A sample presence map: identities 7, 9 and 11 are in room 3. -/
def samplePresence : PresenceMap :=
  updatePresence 3 11 "enter" (updatePresence 3 9 "enter" (updatePresence 3 7 "enter"
    GoMap.empty))

/-- The payloads written to handle `c`, oldest first. -/
def receivedBy (s : Server) (c : Nat) : List Payload :=
  (s.sent.filter (fun w => decide (w.1 = c))).map Prod.snd

/-- A sample message: identity 7 says "hi" in room 3. -/
def sampleMsg : ChatMessage :=
  { ID := 1, Text := "hi", Sender := "alice", ReadCount := 0, ReadStatus := "", Images := [],
    RoomID := 3, Type_ := "message", UserID := 7, ClientID := "c-1" }

/-- A sample session set: handles 1, 2 and 4. -/
def sampleClients : GoMap Nat Bool :=
  ((GoMap.empty.insert 1 true).insert 2 true).insert 4 true

/-- A sample state: room 3 has the sessions 1, 2 and 4, room 5 has session 6, and three
events are queued, the middle one for room 5. -/
def sampleServer : Server :=
  { Server.init with
    roomClients := (GoMap.empty.insert 3 sampleClients).insert 5 (GoMap.empty.insert 6 true),
    broadcast := [sampleMsg, { sampleMsg with ID := 2, RoomID := 5 },
      { sampleMsg with ID := 3, Text := "ho" }] }

/-! ## Lock discipline of the registry functions (`utils.go` lines 46-97) -/

/-- What a registry function does to `connMutex` and to connections, in program order. -/
inductive MutexEvent where
  /-- `connMutex.Lock()`. -/
  | lock
  /-- `connMutex.Unlock()`, called directly or by `defer` on return. -/
  | unlock
  /-- `c.Conn.WriteJSON(msg)` on the handle. -/
  | write (conn : Nat)
  /-- `c.Conn.Close()` on the handle. -/
  | close (conn : Nat)
deriving DecidableEq, Repr

/-- The events of Go `BroadcastToRoom` (lines 46-57): `Lock`, the read of
`roomConns[roomID]`, `Unlock`, then one `WriteJSON` per connection other than `exclude`. -/
def BroadcastToRoomEvents (roomID : Int) (exclude : Option Connection) (s : Server) :
    List MutexEvent :=
  let conns := (s.roomConns.lookup roomID).getD []
  [MutexEvent.lock, MutexEvent.unlock] ++
    (conns.filter (fun c => decide (some c ≠ exclude))).map (fun c => MutexEvent.write c.Conn)

/-- The events of Go `BroadcastGlobal` (lines 89-97): `Lock`, one `WriteJSON` per global
connection, and the deferred `Unlock` on return. -/
def BroadcastGlobalEvents (s : Server) : List MutexEvent :=
  [MutexEvent.lock] ++ s.globalConns.map (fun c => MutexEvent.write c.Conn)
    ++ [MutexEvent.unlock]

/-- The events of Go `DisconnectExistingNotifyConnection` (lines 76-87): `Lock`, the
`Close` of the first connection of `userID` if there is one, and the deferred `Unlock`. -/
def DisconnectExistingNotifyConnectionEvents (userID : Int) (s : Server) : List MutexEvent :=
  [MutexEvent.lock] ++
    (match s.globalConns.find? (fun c => decide (c.UserID = userID)) with
      | some c => [MutexEvent.close c.Conn]
      | none => []) ++ [MutexEvent.unlock]

/-- No `WriteJSON` and no `Close` of the event list happens while the mutex is held;
`held` says whether it is held before the first event. -/
def effectsOutsideLock : Bool → List MutexEvent → Bool
  | _, [] => true
  | _, MutexEvent.lock :: rest => effectsOutsideLock true rest
  | _, MutexEvent.unlock :: rest => effectsOutsideLock false rest
  | held, MutexEvent.write _ :: rest => !held && effectsOutsideLock held rest
  | held, MutexEvent.close _ :: rest => !held && effectsOutsideLock held rest

/-- Every `WriteJSON` and every `Close` of the event list happens while the mutex is
held, and the mutex is released after the last event. -/
def effectsUnderLock : Bool → List MutexEvent → Bool
  | held, [] => !held
  | _, MutexEvent.lock :: rest => effectsUnderLock true rest
  | _, MutexEvent.unlock :: rest => effectsUnderLock false rest
  | held, MutexEvent.write _ :: rest => held && effectsUnderLock held rest
  | held, MutexEvent.close _ :: rest => held && effectsUnderLock held rest

/-! ## The registry functions with their mutex calls (`utils.go` lines 46-97) -/

/-- The statement `connMutex.Lock()`: recorded, the state stays. -/
def lockMutex (t : Server × List MutexEvent) : Server × List MutexEvent :=
  (t.1, t.2 ++ [MutexEvent.lock])

/-- The statement `connMutex.Unlock()`, direct or deferred: recorded, the state stays. -/
def unlockMutex (t : Server × List MutexEvent) : Server × List MutexEvent :=
  (t.1, t.2 ++ [MutexEvent.unlock])

/-- The statement `c.Conn.WriteJSON(msg)`: the write of `writeJSON`, recorded whether or
not it returns an error. -/
def writeTraced (fails : Nat → Bool) (msg : Payload) (t : Server × List MutexEvent)
    (conn : Nat) : Server × List MutexEvent :=
  (writeJSON fails msg t.1 conn, t.2 ++ [MutexEvent.write conn])

/-- Go `BroadcastToRoom` statement by statement: `Lock`, the read of `roomConns[roomID]`,
`Unlock`, then the loop of writes. -/
def BroadcastToRoomTraced (fails : Nat → Bool) (roomID : Int) (msg : Payload)
    (exclude : Option Connection) (s : Server) : Server × List MutexEvent :=
  let t0 := lockMutex (s, [])
  let conns := (t0.1.roomConns.lookup roomID).getD []
  let t1 := unlockMutex t0
  conns.foldl (fun t c => if some c ≠ exclude then writeTraced fails msg t c.Conn else t) t1

/-- Go `BroadcastGlobal` statement by statement: `Lock`, `defer Unlock`, the loop of
writes over `globalConns`, and the deferred `Unlock` on return. -/
def BroadcastGlobalTraced (fails : Nat → Bool) (msg : Payload) (s : Server) :
    Server × List MutexEvent :=
  let t0 := lockMutex (s, [])
  let t1 := t0.1.globalConns.foldl (fun t c => writeTraced fails msg t c.Conn) t0
  unlockMutex t1

/-- Go `DisconnectExistingNotifyConnection` statement by statement: `Lock`,
`defer Unlock`, the `Close` and removal of the first connection of `userID`, and the
deferred `Unlock` on return. -/
def DisconnectExistingNotifyConnectionTraced (userID : Int) (s : Server) :
    Server × List MutexEvent :=
  let t0 := lockMutex (s, [])
  let t1 := match t0.1.globalConns.find? (fun c => decide (c.UserID = userID)) with
    | some c =>
      ({ t0.1 with closed := t0.1.closed ++ [c.Conn],
                   globalConns := t0.1.globalConns.eraseP (fun c => decide (c.UserID = userID)) },
        t0.2 ++ [MutexEvent.close c.Conn])
    | none => t0
  unlockMutex t1

/-! ## More sample data -/

/-- A sample `jwt.Parse`: the token "tok-alice" carries username "alice" and user id 7,
every other token is rejected. -/
def sampleJwtParse (tokenStr : String) : Option Frame :=
  if tokenStr = "tok-alice" then
    some ((GoMap.empty.insert "username" (JSONValue.string "alice")).insert "userId"
      (JSONValue.float64 7 0))
  else none

/-- A sample state with two global sessions: handle 1 of identity 7, handle 2 of
identity 9. -/
def sampleGlobalServer : Server :=
  AddGlobalConnection ⟨2, 9, 0⟩ (AddGlobalConnection ⟨1, 7, 0⟩ Server.init)

/-- A sample two-party room: room 3 is not a group, its members are alice (7) and bob (9),
each has sent one message; carol (11) is a user but not a member. -/
def twoPartyStore : Store :=
  { users := [⟨7, "alice"⟩, ⟨9, "bob"⟩, ⟨11, "carol"⟩],
    chat_rooms := [⟨3, 0⟩],
    messages := [⟨1, 3, 7, "hi", "c-1", 10⟩, ⟨2, 3, 9, "yo", "c-2", 20⟩],
    message_attachments := [],
    message_reads := [] }

/-- A presence map in which carol (11) is the only identity flagged in room 3: she sent
a presence frame for the room on her notify socket; bob (9) is absent. -/
def strangerPresence : PresenceMap :=
  updatePresence 3 11 "enter" GoMap.empty

/-- A sample state in which identity 7 (alice) is flagged present in room 3. -/
def presentServer : Server :=
  { Server.init with roomPresenceMap := updatePresence 3 7 "enter" GoMap.empty }

/-- Sample claims whose `userId` is a string that is not a decimal integer. -/
def badUserIdClaims : Frame :=
  (GoMap.empty.insert "username" (JSONValue.string "alice")).insert "userId"
    (JSONValue.string "7x")

/-- A sample state with two sessions registered in `roomConns` for room 3. -/
def sampleRoomServer : Server :=
  AddRoomConnection 3 ⟨2, 9, 3⟩ (AddRoomConnection 3 ⟨1, 7, 3⟩ Server.init)

/-- The exclusivity invariant: an identity is flagged present in at most one room. -/
def Exclusive (p : PresenceMap) : Prop :=
  ∀ u r1 r2 : Int, IsPresent p r1 u = true → IsPresent p r2 u = true → r1 = r2

/-! ## Theorems -/

/-! ### Go maps -/

namespace GoMap

variable {K V W : Type} [DecidableEq K]

theorem find_filter_ne_self (l : List (K × V)) (k : K) :
    (l.filter (fun e => decide (e.1 ≠ k))).find? (fun e => decide (e.1 = k)) = none := by
  rw [List.find?_eq_none]
  intro e he
  have := (List.mem_filter.1 he).2
  simpa using this

theorem find_filter_ne_other (l : List (K × V)) (k k1 : K) (h : k1 ≠ k) :
    (l.filter (fun e => decide (e.1 ≠ k1))).find? (fun e => decide (e.1 = k))
      = l.find? (fun e => decide (e.1 = k)) := by
  induction l with
  | nil => rfl
  | cons e l ih =>
    rcases e with ⟨a, b⟩
    by_cases h1 : a = k1
    · have h2 : ¬ a = k := fun h3 => h (h1.symm.trans h3)
      rw [List.filter_cons_of_neg (by simpa using h1), List.find?_cons_of_neg _ (by simpa using h2)]
      exact ih
    · rw [List.filter_cons_of_pos (by simpa using h1)]
      by_cases h2 : a = k
      · rw [List.find?_cons_of_pos _ (by simpa using h2), List.find?_cons_of_pos _ (by simpa using h2)]
      · rw [List.find?_cons_of_neg _ (by simpa using h2), List.find?_cons_of_neg _ (by simpa using h2)]
        exact ih

theorem lookup_empty (k : K) : (empty : GoMap K V).lookup k = none := rfl

theorem lookup_delete_self (m : GoMap K V) (k : K) : (m.delete k).lookup k = none := by
  simp [lookup, delete, find_filter_ne_self]

theorem lookup_delete_other (m : GoMap K V) (k k1 : K) (h : k1 ≠ k) :
    (m.delete k1).lookup k = m.lookup k := by
  simp only [lookup, delete, find_filter_ne_other _ _ _ h]

theorem lookup_insert_self (m : GoMap K V) (k : K) (v : V) :
    (m.insert k v).lookup k = some v := by
  simp [lookup, insert]

theorem lookup_insert_other (m : GoMap K V) (k k1 : K) (v : V) (h : k1 ≠ k) :
    (m.insert k1 v).lookup k = m.lookup k := by
  simp only [lookup, insert, List.find?_cons, decide_eq_true_eq, h, decide_False,
    find_filter_ne_other _ _ _ h]

theorem lookup_mapVals (f : V → W) (m : GoMap K V) (k : K) :
    (m.mapVals f).lookup k = (m.lookup k).map f := by
  unfold lookup mapVals
  simp only
  induction m.entries with
  | nil => rfl
  | cons e l ih =>
    by_cases h : e.1 = k
    · simp [List.find?_cons, h]
    · simpa [List.find?_cons, h] using ih

theorem lookup_modify (m : GoMap K V) (k k1 : K) (f : V → V) :
    (m.modify k1 f).lookup k = if k1 = k then (m.lookup k).map f else m.lookup k := by
  unfold lookup modify
  simp only
  induction m.entries with
  | nil => simp
  | cons e l ih =>
    rcases e with ⟨a, b⟩
    rw [List.map_cons]
    have hfst : (if a = k1 then (a, f b) else (a, b)).1 = a := by
      by_cases h1 : a = k1 <;> simp [h1]
    by_cases h : a = k
    · rw [List.find?_cons_of_pos _ (by simpa [hfst] using h),
        List.find?_cons_of_pos _ (by simpa using h)]
      by_cases h1 : a = k1
      · have h2 : k1 = k := h1.symm.trans h
        simp [h1, h2]
      · have h2 : ¬ k1 = k := fun h3 => h1 (h.trans h3.symm)
        simp [h1, h2]
    · rw [List.find?_cons_of_neg _ (by simpa [hfst] using h),
        List.find?_cons_of_neg _ (by simpa using h)]
      exact ih

end GoMap

/-! ### Presence -/

/-- The first statement of `updatePresence`: make sure the room has an inner map. -/
theorem lookup_ensureRoom (p : PresenceMap) (r r1 : Int) :
    (match p.lookup r with
      | some _ => p
      | none => p.insert r GoMap.empty).lookup r1
      = if r1 = r then some ((p.lookup r).getD GoMap.empty) else p.lookup r1 := by
  cases h : p.lookup r with
  | some m =>
    by_cases h1 : r1 = r
    · simp [h1, h]
    · simp [h1]
  | none =>
    by_cases h1 : r1 = r
    · subst h1
      simp [GoMap.lookup_insert_self]
    · simp [h1, GoMap.lookup_insert_other _ _ _ _ (Ne.symm h1)]

theorem isPresent_ensureRoom (p : PresenceMap) (r r1 u1 : Int) :
    IsPresent (match p.lookup r with
      | some _ => p
      | none => p.insert r GoMap.empty) r1 u1 = IsPresent p r1 u1 := by
  unfold IsPresent
  rw [lookup_ensureRoom]
  by_cases h1 : r1 = r
  · subst h1
    cases h : p.lookup r1 <;> simp [GoMap.lookup_empty]
  · simp [h1]

theorem isPresent_clear (p : PresenceMap) (u r1 u1 : Int) :
    IsPresent (p.mapVals (fun members => members.delete u)) r1 u1
      = if u1 = u then false else IsPresent p r1 u1 := by
  unfold IsPresent
  rw [GoMap.lookup_mapVals]
  cases h : p.lookup r1 with
  | none => simp
  | some m =>
    by_cases h1 : u1 = u
    · subst h1
      simp [GoMap.lookup_delete_self]
    · simp [h1, GoMap.lookup_delete_other _ _ _ (Ne.symm h1)]

theorem isPresent_modify_insert (p : PresenceMap) (r u r1 u1 : Int) :
    IsPresent (p.modify r (fun members => members.insert u true)) r1 u1
      = if r1 = r ∧ u1 = u ∧ (p.lookup r).isSome then true else IsPresent p r1 u1 := by
  unfold IsPresent
  rw [GoMap.lookup_modify]
  by_cases h1 : r = r1
  · subst h1
    cases h : p.lookup r with
    | none => simp
    | some m =>
      by_cases h2 : u1 = u
      · subst h2
        simp [GoMap.lookup_insert_self]
      · simp [h2, GoMap.lookup_insert_other _ _ _ _ (Ne.symm h2)]
  · have h2 : ¬ r1 = r := fun h3 => h1 h3.symm
    simp [h1, h2]

theorem isPresent_modify_delete (p : PresenceMap) (r u r1 u1 : Int) :
    IsPresent (p.modify r (fun members => members.delete u)) r1 u1
      = if r1 = r ∧ u1 = u then false else IsPresent p r1 u1 := by
  unfold IsPresent
  rw [GoMap.lookup_modify]
  by_cases h1 : r = r1
  · subst h1
    cases h : p.lookup r with
    | none => simp
    | some m =>
      by_cases h2 : u1 = u
      · subst h2
        simp [GoMap.lookup_delete_self]
      · simp [h2, GoMap.lookup_delete_other _ _ _ (Ne.symm h2)]
  · have h2 : ¬ r1 = r := fun h3 => h1 h3.symm
    simp [h1, h2]

/-- What `enter` does to the presence relation. -/
theorem isPresent_enter (p : PresenceMap) (r u r1 u1 : Int) :
    IsPresent (updatePresence r u "enter" p) r1 u1
      = if u1 = u then decide (r1 = r) else IsPresent p r1 u1 := by
  unfold updatePresence
  simp only [if_true]
  rw [isPresent_modify_insert, isPresent_clear, isPresent_ensureRoom, GoMap.lookup_mapVals,
    lookup_ensureRoom]
  by_cases h1 : u1 = u <;> by_cases h2 : r1 = r <;> simp [h1, h2]

/-- What `leave` does to the presence relation. -/
theorem isPresent_leave (p : PresenceMap) (r u r1 u1 : Int) :
    IsPresent (updatePresence r u "leave" p) r1 u1
      = if r1 = r ∧ u1 = u then false else IsPresent p r1 u1 := by
  unfold updatePresence
  rw [if_neg (by decide), if_pos rfl, isPresent_modify_delete, isPresent_ensureRoom]

/-- Any other action string leaves the presence relation as it was. -/
theorem isPresent_otherAction (p : PresenceMap) (r u : Int) (action : String)
    (h1 : action ≠ "enter") (h2 : action ≠ "leave") (r1 u1 : Int) :
    IsPresent (updatePresence r u action p) r1 u1 = IsPresent p r1 u1 := by
  unfold updatePresence
  rw [if_neg h1, if_neg h2, isPresent_ensureRoom]

theorem exclusive_empty : Exclusive (GoMap.empty : PresenceMap) := by
  intro u r1 r2 h1 _
  simp [IsPresent, GoMap.lookup_empty] at h1

theorem exclusive_updatePresence (p : PresenceMap) (hp : Exclusive p) (r u : Int)
    (action : String) : Exclusive (updatePresence r u action p) := by
  intro u1 r1 r2 h1 h2
  by_cases he : action = "enter"
  · subst he
    rw [isPresent_enter] at h1 h2
    by_cases hu : u1 = u
    · simp [hu] at h1 h2
      exact h1.trans h2.symm
    · simp [hu] at h1 h2
      exact hp u1 r1 r2 h1 h2
  · by_cases hl : action = "leave"
    · subst hl
      rw [isPresent_leave] at h1 h2
      split_ifs at h1 h2
      exact hp u1 r1 r2 h1 h2
    · rw [isPresent_otherAction p r u action he hl] at h1 h2
      exact hp u1 r1 r2 h1 h2

theorem exclusive_removeFromAllRooms (p : PresenceMap) (hp : Exclusive p) (u : Int) :
    Exclusive (removeFromAllRooms u p) := by
  intro u1 r1 r2 h1 h2
  unfold removeFromAllRooms at h1 h2
  rw [isPresent_clear] at h1 h2
  split_ifs at h1 h2
  exact hp u1 r1 r2 h1 h2

theorem exclusive_foldl (ops : List PresenceOp) (p : PresenceMap) (hp : Exclusive p) :
    Exclusive (ops.foldl (fun p op => op.run p) p) := by
  induction ops generalizing p with
  | nil => exact hp
  | cons op ops ih =>
    apply ih
    cases op with
    | update r u a => exact exclusive_updatePresence p hp r u a
    | removeAll u => exact exclusive_removeFromAllRooms p hp u

/-- C1: for every presence state, identity `u` and distinct rooms `r1`, `r2`, after
`updatePresence(r1, u, "enter")` followed by `updatePresence(r2, u, "enter")` the
identity is not present in `r1` and is present in `r2`. -/
theorem enter_enter_exclusive (p : PresenceMap) (u r1 r2 : Int) (h : r1 ≠ r2) :
    IsPresent (updatePresence r2 u "enter" (updatePresence r1 u "enter" p)) r1 u = false ∧
    IsPresent (updatePresence r2 u "enter" (updatePresence r1 u "enter" p)) r2 u = true := by
  constructor
  · rw [isPresent_enter]
    simp [h]
  · rw [isPresent_enter]
    simp

theorem enter_enter_exclusive_witness :
    (3 : Int) ≠ 5 ∧
    IsPresent (updatePresence 5 7 "enter" (updatePresence 3 7 "enter" GoMap.empty)) 3 7 = false ∧
    IsPresent (updatePresence 5 7 "enter" (updatePresence 3 7 "enter" GoMap.empty)) 5 7 = true :=
  ⟨by decide, enter_enter_exclusive GoMap.empty 7 3 5 (by decide)⟩

/-- C2: in every presence state reached from the empty map by any sequence of
`updatePresence` calls (any room, identity and action string) and
`removeFromAllRooms` calls, each identity is flagged present in at most one room. -/
theorem reachable_presence_exclusive (ops : List PresenceOp) (u r1 r2 : Int) :
    IsPresent (runPresence ops) r1 u = true → IsPresent (runPresence ops) r2 u = true →
      r1 = r2 :=
  exclusive_foldl ops GoMap.empty exclusive_empty u r1 r2

theorem reachable_presence_exclusive_witness :
    IsPresent (runPresence [.update 3 7 "enter", .update 4 9 "enter", .update 4 7 "enter",
      .removeAll 9, .update 4 9 "enter"]) 4 7 = true ∧ (4 : Int) = 4 :=
  ⟨by decide, reachable_presence_exclusive [.update 3 7 "enter", .update 4 9 "enter",
    .update 4 7 "enter", .removeAll 9, .update 4 9 "enter"] 7 4 4 (by decide) (by decide)⟩

/-! ### Global registry -/

theorem eraseP_user_clears (l : List Connection) (u : Int)
    (h : (l.map Connection.UserID).Nodup) :
    ∀ c ∈ l.eraseP (fun c => decide (c.UserID = u)), c.UserID ≠ u := by
  induction l with
  | nil => intro c hc; simp at hc
  | cons a l ih =>
    rw [List.map_cons, List.nodup_cons] at h
    by_cases ha : a.UserID = u
    · rw [List.eraseP_cons_of_pos (by simpa using ha)]
      intro c hc hcu
      exact h.1 (List.mem_map.2 ⟨c, hc, hcu.trans ha.symm⟩)
    · rw [List.eraseP_cons_of_neg (by simpa using ha)]
      intro c hc
      rcases List.mem_cons.1 hc with hca | hcl
      · rw [hca]; exact ha
      · exact ih h.2 c hcl

theorem find_append_last (l : List Connection) (c : Connection) (u : Int)
    (hl : ∀ a ∈ l, a.UserID ≠ u) (hc : c.UserID = u) :
    (l ++ [c]).find? (fun c => decide (c.UserID = u)) = some c := by
  induction l with
  | nil => simp [hc]
  | cons a l ih =>
    rw [List.cons_append, List.find?_cons_of_neg _ (by simpa using hl a (List.mem_cons_self a l))]
    exact ih (fun b hb => hl b (List.mem_cons_of_mem a hb))

theorem eraseP_append_last (l : List Connection) (c : Connection) (u : Int)
    (hl : ∀ a ∈ l, a.UserID ≠ u) (hc : c.UserID = u) :
    (l ++ [c]).eraseP (fun c => decide (c.UserID = u)) = l := by
  induction l with
  | nil => simp [hc]
  | cons a l ih =>
    rw [List.cons_append, List.eraseP_cons_of_neg (by simpa using hl a (List.mem_cons_self a l)),
      ih (fun b hb => hl b (List.mem_cons_of_mem a hb))]

theorem filter_user_append_last (l : List Connection) (c : Connection) (u : Int)
    (hl : ∀ a ∈ l, a.UserID ≠ u) (hc : c.UserID = u) :
    (l ++ [c]).filter (fun c => decide (c.UserID = u)) = [c] := by
  rw [List.filter_append, List.filter_eq_nil_iff.2 (fun a ha => by simpa using hl a ha)]
  simp [hc]

theorem globalConns_disconnect (u : Int) (s : Server) :
    (DisconnectExistingNotifyConnection u s).globalConns
      = s.globalConns.eraseP (fun c => decide (c.UserID = u)) := by
  unfold DisconnectExistingNotifyConnection
  cases h : s.globalConns.find? (fun c => decide (c.UserID = u)) with
  | some c => rfl
  | none =>
    simp only
    rw [List.find?_eq_none] at h
    exact (List.eraseP_of_forall_not (fun a ha => h a ha)).symm

theorem closed_disconnect_of_find (u : Int) (s : Server) (c : Connection)
    (c0 : Connection)
    (h : s.globalConns.find? (fun c => decide (c.UserID = u)) = some c) :
    c.Conn ∈ (AddGlobalConnection c0 (DisconnectExistingNotifyConnection u s)).closed := by
  unfold AddGlobalConnection DisconnectExistingNotifyConnection
  simp [h]

theorem globalConns_install (c : Connection) (s : Server) :
    (installGlobal c s).globalConns
      = s.globalConns.eraseP (fun a => decide (a.UserID = c.UserID)) ++ [c] := by
  unfold installGlobal AddGlobalConnection
  simp only [globalConns_disconnect]

/-- At most one global connection per identity. -/
theorem nodup_users_run (op : GlobalOp) (s : Server)
    (h : (s.globalConns.map Connection.UserID).Nodup) :
    ((op.run s).globalConns.map Connection.UserID).Nodup := by
  cases op with
  | install c =>
    show ((installGlobal c s).globalConns.map Connection.UserID).Nodup
    rw [globalConns_install, List.map_append, List.map_singleton]
    refine List.Nodup.append ?_ (List.nodup_singleton _) ?_
    · exact (List.Sublist.map _ (List.eraseP_sublist _)).nodup h
    · rw [List.disjoint_singleton]
      intro hm
      rcases List.mem_map.1 hm with ⟨a, ha, hau⟩
      exact eraseP_user_clears s.globalConns c.UserID h a ha hau
  | remove c =>
    exact (List.Sublist.map _ (List.eraseP_sublist _)).nodup h

theorem nodup_users_foldl (ops : List GlobalOp) (s : Server)
    (h : (s.globalConns.map Connection.UserID).Nodup) :
    ((ops.foldl (fun s op => op.run s) s).globalConns.map Connection.UserID).Nodup := by
  induction ops generalizing s with
  | nil => exact h
  | cons op ops ih => exact ih _ (nodup_users_run op s h)

theorem nodup_users_runGlobal (ops : List GlobalOp) :
    ((runGlobal ops).globalConns.map Connection.UserID).Nodup :=
  nodup_users_foldl ops Server.init List.nodup_nil

/-- C3: in every global registry state reached by install steps
(`DisconnectExistingNotifyConnection(u)` then `AddGlobalConnection(c)`) and
`RemoveGlobalConnection`, installing session `c1` of identity `u` and then session `c2`
of `u` leaves exactly one global session of `u` in `globalConns`, namely `c2`, and the
connection of `c1` has been closed. -/
theorem install_twice_single (ops : List GlobalOp) (u : Int) (c1 c2 : Connection)
    (h1 : c1.UserID = u) (h2 : c2.UserID = u) :
    (installGlobal c2 (installGlobal c1 (runGlobal ops))).globalConns.filter
        (fun c => decide (c.UserID = u)) = [c2] ∧
    c1.Conn ∈ (installGlobal c2 (installGlobal c1 (runGlobal ops))).closed := by
  have hclear := eraseP_user_clears (runGlobal ops).globalConns u (nodup_users_runGlobal ops)
  have hg1 := globalConns_install c1 (runGlobal ops)
  rw [h1] at hg1
  constructor
  · rw [globalConns_install, h2, hg1, eraseP_append_last _ c1 u hclear h1]
    exact filter_user_append_last _ c2 u hclear h2
  · have hfind := find_append_last _ c1 u hclear h1
    rw [← hg1] at hfind
    exact closed_disconnect_of_find c2.UserID (installGlobal c1 (runGlobal ops)) c1 c2
      (by rw [h2]; exact hfind)

theorem install_twice_single_witness :
    (installGlobal ⟨12, 7, 0⟩ (installGlobal ⟨11, 7, 0⟩
        (runGlobal [.install ⟨10, 7, 0⟩, .install ⟨20, 9, 0⟩]))).globalConns.filter
        (fun c => decide (c.UserID = 7)) = [⟨12, 7, 0⟩] ∧
    11 ∈ (installGlobal ⟨12, 7, 0⟩ (installGlobal ⟨11, 7, 0⟩
        (runGlobal [.install ⟨10, 7, 0⟩, .install ⟨20, 9, 0⟩]))).closed :=
  install_twice_single [.install ⟨10, 7, 0⟩, .install ⟨20, 9, 0⟩] 7 ⟨11, 7, 0⟩ ⟨12, 7, 0⟩ rfl rfl

/-! ### Broadcaster -/

theorem sent_foldl_broadcastConn (fails : Nat → Bool) (msg : ChatMessage) (ks : List Nat)
    (s : Server) :
    (ks.foldl (broadcastConn fails msg) s).sent
      = s.sent ++ (ks.filter (fun c => !fails c)).map (fun c => (c, Payload.chat msg)) := by
  induction ks generalizing s with
  | nil => simp
  | cons c ks ih =>
    rw [List.foldl_cons, ih]
    unfold broadcastConn
    by_cases h : fails c = true
    · simp [h]
    · simp [h]

theorem closed_foldl_broadcastConn (fails : Nat → Bool) (msg : ChatMessage) (ks : List Nat)
    (s : Server) :
    (ks.foldl (broadcastConn fails msg) s).closed = s.closed ++ ks.filter (fun c => fails c) := by
  induction ks generalizing s with
  | nil => simp
  | cons c ks ih =>
    rw [List.foldl_cons, ih]
    unfold broadcastConn
    by_cases h : fails c = true
    · simp [h]
    · simp [h]

theorem roomClients_foldl_broadcastConn (fails : Nat → Bool) (msg : ChatMessage) (ks : List Nat)
    (s : Server) :
    (ks.foldl (broadcastConn fails msg) s).roomClients
      = ks.foldl (fun rc c => if fails c = true then
          rc.modify msg.RoomID (fun clients => clients.delete c) else rc) s.roomClients := by
  induction ks generalizing s with
  | nil => rfl
  | cons c ks ih =>
    rw [List.foldl_cons, List.foldl_cons, ih]
    unfold broadcastConn
    by_cases h : fails c = true
    · simp [h]
    · simp [h]

theorem lookup_foldl_modify (fails : Nat → Bool) (R : Int) (ks : List Nat)
    (rc : GoMap Int (GoMap Nat Bool)) (r : Int) :
    (ks.foldl (fun rc c => if fails c = true then
        rc.modify R (fun clients => clients.delete c) else rc) rc).lookup r
      = if R = r then (rc.lookup r).map (fun m =>
          ks.foldl (fun m c => if fails c = true then m.delete c else m) m)
        else rc.lookup r := by
  induction ks generalizing rc with
  | nil => by_cases h : R = r <;> simp [h]
  | cons c ks ih =>
    rw [List.foldl_cons, ih]
    by_cases h : R = r
    · by_cases hf : fails c = true
      · simp [h, hf, GoMap.lookup_modify, Option.map_map, Function.comp_def]
      · simp [h, hf]
    · by_cases hf : fails c = true
      · simp [h, hf, GoMap.lookup_modify]
      · simp [h, hf]

theorem entries_foldl_delete (fails : Nat → Bool) (ks : List Nat) (m : GoMap Nat Bool) :
    (ks.foldl (fun m c => if fails c = true then m.delete c else m) m).entries
      = m.entries.filter (fun e => !(decide (e.1 ∈ ks) && fails e.1)) := by
  induction ks generalizing m with
  | nil => simp
  | cons c ks ih =>
    rw [List.foldl_cons, ih]
    by_cases hf : fails c = true
    · simp only [hf, if_true, GoMap.delete, List.filter_filter]
      apply List.filter_congr
      intro e _
      by_cases he : e.1 = c
      · simp [he, hf]
      · simp [he]
    · simp only [hf, if_false]
      apply List.filter_congr
      intro e _
      by_cases he : e.1 = c
      · simp [he, hf]
      · simp [he]

theorem keys_foldl_delete_keys (fails : Nat → Bool) (m : GoMap Nat Bool) :
    (m.keys.foldl (fun m c => if fails c = true then m.delete c else m) m).keys
      = m.keys.filter (fun c => !fails c) := by
  unfold GoMap.keys
  rw [entries_foldl_delete, List.filter_map]
  congr 1
  apply List.filter_congr
  intro e he
  have : e.1 ∈ m.entries.map Prod.fst := List.mem_map_of_mem _ he
  simp [this]

/-- The exact effect of one event of `StartBroadcaster` on a room with session set
`clients`: one write per session whose write succeeds, one `Close` and one `delete` per
session whose write fails. -/
theorem broadcastEvent_effect (fails : Nat → Bool) (msg : ChatMessage) (s : Server)
    (clients : GoMap Nat Bool) (h : s.roomClients.lookup msg.RoomID = some clients) :
    (broadcastEvent fails msg s).sent
        = s.sent ++ (clients.keys.filter (fun c => !fails c)).map (fun c => (c, Payload.chat msg)) ∧
    (broadcastEvent fails msg s).closed = s.closed ++ clients.keys.filter (fun c => fails c) ∧
    ∃ rest : GoMap Nat Bool,
      (broadcastEvent fails msg s).roomClients.lookup msg.RoomID = some rest ∧
      rest.keys = clients.keys.filter (fun c => !fails c) := by
  unfold broadcastEvent
  rw [h]
  simp only
  refine ⟨sent_foldl_broadcastConn _ _ _ _, closed_foldl_broadcastConn _ _ _ _, ?_⟩
  rw [roomClients_foldl_broadcastConn, lookup_foldl_modify, if_pos rfl, h]
  exact ⟨_, rfl, keys_foldl_delete_keys fails clients⟩

theorem filter_eq_singleton (ks : List Nat) (hk : ks.Nodup) (c : Nat) (hc : c ∈ ks) :
    ks.filter (fun a => decide (a = c)) = [c] := by
  induction ks with
  | nil => simp at hc
  | cons a ks ih =>
    rw [List.nodup_cons] at hk
    by_cases hac : a = c
    · subst hac
      rw [List.filter_cons_of_pos (by simp)]
      rw [List.filter_eq_nil_iff.2]
      intro b hb
      have : b ≠ a := fun hba => hk.1 (hba ▸ hb)
      simpa using this
    · rw [List.filter_cons_of_neg (by simpa using hac)]
      rcases List.mem_cons.1 hc with h1 | h1
      · exact absurd h1.symm hac
      · exact ih hk.2 h1

theorem filter_eq_nil_of_not_mem (ks : List Nat) (c : Nat) (hc : c ∉ ks) :
    ks.filter (fun a => decide (a = c)) = [] := by
  rw [List.filter_eq_nil_iff]
  intro b hb
  have : b ≠ c := fun hbc => hc (hbc ▸ hb)
  simpa using this

theorem receivedBy_append (s : Server) (sent1 : List (Nat × Payload)) (c : Nat) (ks : List Nat)
    (x : Payload) (h : sent1 = s.sent ++ ks.map (fun c => (c, x))) :
    (sent1.filter (fun w => decide (w.1 = c))).map Prod.snd
      = receivedBy s c ++ (ks.filter (fun a => decide (a = c))).map (fun _ => x) := by
  subst h
  unfold receivedBy
  rw [List.filter_append, List.map_append, List.filter_map, List.map_map]
  rfl

/-- C4: for every room event processed by `StartBroadcaster` and every set of the
room's sessions whose write fails (`fails`): every session of the room outside the set
is written the event exactly once, every session in the set is closed and removed from
the room's session set, and the sessions outside it stay registered, so that the next
event for the room (`msg2`) is written to each of them whose write then succeeds. -/
theorem broadcast_failure_isolated (fails fails2 : Nat → Bool) (msg msg2 : ChatMessage)
    (s : Server) (clients : GoMap Nat Bool)
    (h : s.roomClients.lookup msg.RoomID = some clients) (hroom : msg2.RoomID = msg.RoomID) :
    (∀ c ∈ clients.keys, fails c = false →
      receivedBy (broadcastEvent fails msg s) c = receivedBy s c ++ [Payload.chat msg]) ∧
    (∀ c ∈ clients.keys, fails c = true →
      c ∈ (broadcastEvent fails msg s).closed ∧
      ∀ rest, (broadcastEvent fails msg s).roomClients.lookup msg.RoomID = some rest →
        c ∉ rest.keys) ∧
    (∀ c ∈ clients.keys, fails c = false →
      ∃ rest, (broadcastEvent fails msg s).roomClients.lookup msg.RoomID = some rest ∧
        c ∈ rest.keys) ∧
    (∀ c ∈ clients.keys, fails c = false → fails2 c = false →
      receivedBy (broadcastEvent fails2 msg2 (broadcastEvent fails msg s)) c
        = receivedBy (broadcastEvent fails msg s) c ++ [Payload.chat msg2]) := by
  obtain ⟨hsent, hclosed, rest, hrest, hkeys⟩ := broadcastEvent_effect fails msg s clients h
  have once : ∀ (f : Nat → Bool) (m : ChatMessage) (t : Server) (cl : GoMap Nat Bool),
      t.roomClients.lookup m.RoomID = some cl → ∀ c ∈ cl.keys, f c = false →
      receivedBy (broadcastEvent f m t) c = receivedBy t c ++ [Payload.chat m] := by
    intro f m t cl hcl c hc hf
    have hs := (broadcastEvent_effect f m t cl hcl).1
    have hmem : c ∈ cl.keys.filter (fun c => !f c) := List.mem_filter.2 ⟨hc, by simp [hf]⟩
    have hnd : (cl.keys.filter (fun c => !f c)).Nodup := cl.nodupKeys.filter _
    show ((broadcastEvent f m t).sent.filter (fun w => decide (w.1 = c))).map Prod.snd = _
    rw [receivedBy_append t _ c _ _ hs, filter_eq_singleton _ hnd c hmem]
    rfl
  refine ⟨once fails msg s clients h, ?_, ?_, ?_⟩
  · intro c hc hf
    constructor
    · rw [hclosed]
      exact List.mem_append_right _ (List.mem_filter.2 ⟨hc, hf⟩)
    · intro rest1 h1 hmem
      rw [hrest] at h1
      cases h1
      rw [hkeys] at hmem
      have := (List.mem_filter.1 hmem).2
      simp [hf] at this
  · intro c hc hf
    refine ⟨rest, hrest, ?_⟩
    rw [hkeys]
    exact List.mem_filter.2 ⟨hc, by simp [hf]⟩
  · intro c hc hf hf2
    refine once fails2 msg2 _ rest (by rw [hroom]; exact hrest) c ?_ hf2
    rw [hkeys]
    exact List.mem_filter.2 ⟨hc, by simp [hf]⟩

theorem broadcast_failure_isolated_witness :
    receivedBy (broadcastEvent (fun c => decide (c = 2)) sampleMsg sampleServer) 1
      = receivedBy sampleServer 1 ++ [Payload.chat sampleMsg] ∧
    2 ∈ (broadcastEvent (fun c => decide (c = 2)) sampleMsg sampleServer).closed ∧
    receivedBy (broadcastEvent (fun _ => false) { sampleMsg with ID := 3 }
        (broadcastEvent (fun c => decide (c = 2)) sampleMsg sampleServer)) 4
      = receivedBy (broadcastEvent (fun c => decide (c = 2)) sampleMsg sampleServer) 4
        ++ [Payload.chat { sampleMsg with ID := 3 }] :=
  have h := broadcast_failure_isolated (fun c => decide (c = 2)) (fun _ => false) sampleMsg
    { sampleMsg with ID := 3 } sampleServer sampleClients rfl rfl
  ⟨h.1 1 (by decide) (by decide), (h.2.1 2 (by decide) (by decide)).1,
    h.2.2.2 4 (by decide) (by decide) rfl⟩

theorem roomClients_broadcastEvent_ok (msg : ChatMessage) (s : Server) :
    (broadcastEvent (fun _ => false) msg s).roomClients = s.roomClients := by
  unfold broadcastEvent
  cases h : s.roomClients.lookup msg.RoomID with
  | none => rfl
  | some clients =>
    simp only
    rw [roomClients_foldl_broadcastConn]
    induction clients.keys with
    | nil => rfl
    | cons c ks ih => simp

/-- With no write error, one event adds to what a session of room `R` (and of no other
room) has received: the event when it is for `R`, nothing otherwise. -/
theorem receivedBy_broadcastEvent_ok (msg : ChatMessage) (s : Server) (R : Int)
    (clients : GoMap Nat Bool) (h : s.roomClients.lookup R = some clients) (c : Nat)
    (hc : c ∈ clients.keys)
    (honly : ∀ r m, s.roomClients.lookup r = some m → c ∈ m.keys → r = R) :
    receivedBy (broadcastEvent (fun _ => false) msg s) c
      = receivedBy s c ++ (if msg.RoomID = R then [Payload.chat msg] else []) := by
  cases hm : s.roomClients.lookup msg.RoomID with
  | none =>
    have hne : ¬ msg.RoomID = R := fun he => by rw [he, h] at hm; cases hm
    unfold broadcastEvent
    rw [hm]
    simp [hne]
  | some m =>
    have hs := (broadcastEvent_effect (fun _ => false) msg s m hm).1
    show ((broadcastEvent (fun _ => false) msg s).sent.filter
      (fun w => decide (w.1 = c))).map Prod.snd = _
    rw [receivedBy_append s _ c _ _ hs]
    have hall : m.keys.filter (fun _ => !false) = m.keys := by simp
    rw [hall]
    by_cases he : msg.RoomID = R
    · rw [he, h] at hm
      cases hm
      have hone : clients.keys.filter (fun a => decide (a = c)) = [c] :=
        filter_eq_singleton _ clients.nodupKeys c hc
      rw [hone, if_pos he]
      rfl
    · have hnot : c ∉ m.keys := fun hmem => he (honly _ m hm hmem)
      rw [filter_eq_nil_of_not_mem _ c hnot, if_neg he]
      rfl

theorem receivedBy_drain_ok (queue : List ChatMessage) (k : Nat) (s : Server) (R : Int)
    (clients : GoMap Nat Bool) (h : s.roomClients.lookup R = some clients) (c : Nat)
    (hc : c ∈ clients.keys)
    (honly : ∀ r m, s.roomClients.lookup r = some m → c ∈ m.keys → r = R) :
    receivedBy (drain (fun _ _ => false) k queue s) c
      = receivedBy s c
        ++ (queue.filter (fun e => decide (e.RoomID = R))).map Payload.chat := by
  induction queue generalizing k s with
  | nil => simp [drain]
  | cons msg rest ih =>
    have hrc := roomClients_broadcastEvent_ok msg s
    rw [drain, ih (k + 1) (broadcastEvent (fun _ => false) msg s) (by rw [hrc]; exact h)
      (by rw [hrc]; exact honly), receivedBy_broadcastEvent_ok msg s R clients h c hc honly]
    by_cases he : msg.RoomID = R
    · simp [he]
    · simp [he]

/-- C5: with no write failure and the sessions of room `R` fixed throughout, after
`StartBroadcaster` has drained a queue, what it has written to each session of `R` (a
session being in the set of one room only) is exactly the queued events for `R` in queue
order: no reordering, duplicate or omission, and no event of another room. -/
theorem fifo_delivery (s : Server) (R : Int) (clients : GoMap Nat Bool)
    (h : s.roomClients.lookup R = some clients) (c : Nat) (hc : c ∈ clients.keys)
    (honly : ∀ r m, s.roomClients.lookup r = some m → c ∈ m.keys → r = R) :
    receivedBy (StartBroadcaster (fun _ _ => false) s) c
      = receivedBy s c
        ++ (s.broadcast.filter (fun e => decide (e.RoomID = R))).map Payload.chat :=
  receivedBy_drain_ok s.broadcast 0 { s with broadcast := [] } R clients h c hc honly

theorem fifo_delivery_witness :
    receivedBy (StartBroadcaster (fun _ _ => false) sampleServer) 1
      = receivedBy sampleServer 1
        ++ (sampleServer.broadcast.filter (fun e => decide (e.RoomID = 3))).map Payload.chat :=
  fifo_delivery sampleServer 3 sampleClients rfl 1 (by decide) (by
    intro r m h hm
    by_cases h5 : r = 5
    · subst h5
      have h6 : m = GoMap.empty.insert 6 true := by
        have : sampleServer.roomClients.lookup 5 = some (GoMap.empty.insert 6 true) := rfl
        rw [this] at h
        exact (Option.some.inj h).symm
      subst h6
      exact absurd hm (by decide)
    · by_cases h3 : r = 3
      · exact h3
      · have hn : sampleServer.roomClients.lookup r = none := by
          simp [sampleServer, GoMap.lookup, GoMap.insert, GoMap.empty, List.find?_cons,
            Ne.symm h5, Ne.symm h3]
        rw [hn] at h
        cases h)

/-! ### Handlers -/

/-- C6: for every connection request whose subprotocol token is empty or is rejected by
token verification, neither `HandleWebSocket` nor `NotifyWebSocketHandler` registers the
connection (`roomClients`, `roomConns`, `globalConns`), changes presence, closes another
session or enqueues or writes an event: the call does not end as a served session.  The
one effect is that `HandleWebSocket`, which verifies after the upgrade, closes the
connection it has just upgraded. -/
theorem rejected_token_not_established (jwtParse : String → Option Frame)
    (fails : Nat → Nat → Bool) (r : Request) (upgrade : Option Nat)
    (frames : List ChatMessage) (messages : List (Option Frame)) (s : Server)
    (h : r.token = "" ∨ ∃ e, validateJWTFromTokenString jwtParse r.token = Except.error e) :
    ((HandleWebSocket jwtParse r upgrade frames s).1 ≠ Outcome.served ∧
      (HandleWebSocket jwtParse r upgrade frames s).2.roomClients = s.roomClients ∧
      (HandleWebSocket jwtParse r upgrade frames s).2.roomConns = s.roomConns ∧
      (HandleWebSocket jwtParse r upgrade frames s).2.globalConns = s.globalConns ∧
      (HandleWebSocket jwtParse r upgrade frames s).2.roomPresenceMap = s.roomPresenceMap ∧
      (HandleWebSocket jwtParse r upgrade frames s).2.broadcast = s.broadcast ∧
      (HandleWebSocket jwtParse r upgrade frames s).2.sent = s.sent ∧
      (HandleWebSocket jwtParse r upgrade frames s).2.readJobs = s.readJobs ∧
      ∀ c ∈ (HandleWebSocket jwtParse r upgrade frames s).2.closed,
        c ∈ s.closed ∨ upgrade = some c) ∧
    ((NotifyWebSocketHandler jwtParse fails r upgrade messages s).1 = Outcome.unauthorized ∧
      (NotifyWebSocketHandler jwtParse fails r upgrade messages s).2 = s) := by
  have hv : ∃ e, validateJWTFromTokenString jwtParse r.token = Except.error e := by
    rcases h with h | h
    · exact ⟨_, by rw [h]; rfl⟩
    · exact h
  obtain ⟨e, he⟩ := hv
  constructor
  · have key : HandleWebSocket jwtParse r upgrade frames s = (Outcome.badRequest, s) ∨
        HandleWebSocket jwtParse r upgrade frames s = (Outcome.unauthorized, s) ∨
        HandleWebSocket jwtParse r upgrade frames s = (Outcome.upgradeFailed, s) ∨
        ∃ conn, upgrade = some conn ∧ HandleWebSocket jwtParse r upgrade frames s
          = (Outcome.policyViolation, { s with closed := s.closed ++ [conn] }) := by
      unfold HandleWebSocket
      cases Atoi r.roomId with
      | none => exact Or.inl rfl
      | some roomID =>
        dsimp only
        by_cases ht : r.token = ""
        · rw [if_pos ht]
          exact Or.inr (Or.inl rfl)
        · rw [if_neg ht]
          cases upgrade with
          | none => exact Or.inr (Or.inr (Or.inl rfl))
          | some conn =>
            dsimp only
            rw [he]
            exact Or.inr (Or.inr (Or.inr ⟨conn, rfl, rfl⟩))
    rcases key with hk | hk | hk | ⟨conn, hu, hk⟩
    · rw [hk]
      exact ⟨(fun h0 => nomatch h0), rfl, rfl, rfl, rfl, rfl, rfl, rfl, fun c hc => Or.inl hc⟩
    · rw [hk]
      exact ⟨(fun h0 => nomatch h0), rfl, rfl, rfl, rfl, rfl, rfl, rfl, fun c hc => Or.inl hc⟩
    · rw [hk]
      exact ⟨(fun h0 => nomatch h0), rfl, rfl, rfl, rfl, rfl, rfl, rfl, fun c hc => Or.inl hc⟩
    · rw [hk]
      refine ⟨(fun h0 => nomatch h0), rfl, rfl, rfl, rfl, rfl, rfl, rfl, ?_⟩
      intro c hc
      rcases List.mem_append.1 hc with h1 | h1
      · exact Or.inl h1
      · exact Or.inr (by rw [hu, List.mem_singleton.1 h1])
  · unfold NotifyWebSocketHandler
    by_cases ht : r.token = ""
    · simp [ht]
    · simp [ht, he]

theorem rejected_token_not_established_witness :
    ((HandleWebSocket (fun _ => none) ⟨"3", "bad.token"⟩ (some 9) [sampleMsg] sampleServer).1
        ≠ Outcome.served ∧
      (HandleWebSocket (fun _ => none) ⟨"3", "bad.token"⟩ (some 9) [sampleMsg]
        sampleServer).2.roomClients = sampleServer.roomClients ∧
      (HandleWebSocket (fun _ => none) ⟨"3", "bad.token"⟩ (some 9) [sampleMsg]
        sampleServer).2.broadcast = sampleServer.broadcast) ∧
    (NotifyWebSocketHandler (fun _ => none) (fun _ _ => false) ⟨"3", "bad.token"⟩ (some 9) []
      sampleServer).2 = sampleServer :=
  have h := rejected_token_not_established (fun _ => none) (fun _ _ => false)
    ⟨"3", "bad.token"⟩ (some 9) [sampleMsg] [] sampleServer (Or.inr ⟨_, rfl⟩)
  ⟨⟨h.1.1, h.1.2.1, h.1.2.2.2.2.2.1⟩, h.2.2⟩

/-- C7: for every inbound room frame whose type is "message" or empty, `HandleWebSocket`
enqueues exactly one event: the frame with `Sender`, `UserID` and `RoomID` replaced by
the session's authenticated username, user ID and room ID, whatever the client supplied
for them, and every other field (`ID`, `Text`, `Images`, `Type`, `ClientID`, `ReadCount`,
`ReadStatus`) unchanged. -/
theorem message_frame_stamped (username : String) (userID roomID : Int) (s : Server)
    (frame : ChatMessage) (h : frame.Type_ = "message" ∨ frame.Type_ = "") :
    (handleFrame username userID roomID s frame).broadcast
      = s.broadcast ++ [
        { ID := frame.ID, Text := frame.Text, Sender := username,
          ReadCount := frame.ReadCount, ReadStatus := frame.ReadStatus, Images := frame.Images,
          RoomID := roomID, Type_ := frame.Type_, UserID := userID,
          ClientID := frame.ClientID }] := by
  unfold handleFrame
  rcases h with h | h
  · simp [h]
  · simp [h]

theorem message_frame_stamped_witness :
    (handleFrame "alice" 7 3 sampleServer
        { sampleMsg with Sender := "mallory", UserID := 666, RoomID := 5 }).broadcast
      = sampleServer.broadcast ++ [
        { ID := 1, Text := "hi", Sender := "alice", ReadCount := 0, ReadStatus := "",
          Images := [], RoomID := 3, Type_ := "message", UserID := 7, ClientID := "c-1" }] :=
  message_frame_stamped "alice" 7 3 sampleServer
    { sampleMsg with Sender := "mallory", UserID := 666, RoomID := 5 } (Or.inl rfl)

/-- C8: for every inbound room frame of type "read", the event `HandleWebSocket` enqueues
has empty text and no images, keeps type "read", carries the session's authenticated
identity and room, and has every other field equal to the frame's. -/
theorem read_frame_stripped (username : String) (userID roomID : Int) (s : Server)
    (frame : ChatMessage) (h : frame.Type_ = "read") :
    (handleFrame username userID roomID s frame).broadcast
      = s.broadcast ++ [
        { ID := frame.ID, Text := "", Sender := username,
          ReadCount := frame.ReadCount, ReadStatus := frame.ReadStatus, Images := [],
          RoomID := roomID, Type_ := "read", UserID := userID,
          ClientID := frame.ClientID }] := by
  unfold handleFrame
  simp [h]

theorem read_frame_stripped_witness :
    (handleFrame "alice" 7 3 sampleServer
        { sampleMsg with Type_ := "read", Text := "secret", Images := ["a.png"] }).broadcast
      = sampleServer.broadcast ++ [
        { ID := 1, Text := "", Sender := "alice", ReadCount := 0, ReadStatus := "",
          Images := [], RoomID := 3, Type_ := "read", UserID := 7, ClientID := "c-1" }] :=
  read_frame_stripped "alice" 7 3 sampleServer
    { sampleMsg with Type_ := "read", Text := "secret", Images := ["a.png"] } rfl

/-! ### History fetch -/

theorem find_of_mem_entries {K V : Type} [DecidableEq K] (l : List (K × V)) (e : K × V)
    (hnd : (l.map Prod.fst).Nodup) (he : e ∈ l) :
    (l.find? (fun x => decide (x.1 = e.1))).map Prod.snd = some e.2 := by
  induction l with
  | nil => simp at he
  | cons a l ih =>
    rw [List.map_cons, List.nodup_cons] at hnd
    rcases List.mem_cons.1 he with h1 | h1
    · subst h1
      rw [List.find?_cons_of_pos _ (by simp)]
      rfl
    · have hne : ¬ a.1 = e.1 := fun h2 => hnd.1 (h2 ▸ List.mem_map_of_mem Prod.fst h1)
      rw [List.find?_cons_of_neg _ (by simpa using hne)]
      exact ih hnd.2 h1

theorem GoMap.lookup_of_mem_entries {K V : Type} [DecidableEq K] (m : GoMap K V) (e : K × V)
    (he : e ∈ m.entries) : m.lookup e.1 = some e.2 :=
  find_of_mem_entries m.entries e m.nodupKeys he

theorem contains_eq_true_iff (l : List Int) (v : Int) : contains l v = true ↔ v ∈ l := by
  induction l with
  | nil => simp [contains]
  | cons a l ih =>
    unfold contains
    by_cases h : a = v
    · simp [h]
    · have h2 : ¬ v = a := fun h3 => h h3.symm
      simp [h, h2, ih]

/-- The receipts of message `m`, as the loop of lines 144-150 reads them. -/
theorem newReaders_congr (q : Int) (ru : GoMap Int Bool) (db1 db2 : Store) (m : Int)
    (h : db1.message_reads.filter (fun mr => decide (mr.message_id = m))
      = db2.message_reads.filter (fun mr => decide (mr.message_id = m))) :
    newReaders q ru db1 m = newReaders q ru db2 m := by
  unfold newReaders
  rw [h]

theorem historyMsg_congr (username : String) (q isGroup : Int) (ru : GoMap Int Bool)
    (db1 db2 : Store) (row : HistoryRow)
    (ha : db1.message_attachments = db2.message_attachments)
    (h : db1.message_reads.filter (fun mr => decide (mr.message_id = row.id))
      = db2.message_reads.filter (fun mr => decide (mr.message_id = row.id))) :
    historyMsg username q isGroup ru db1 row = historyMsg username q isGroup ru db2 row := by
  unfold historyMsg
  rw [ha, newReaders_congr q ru db1 db2 row.id h]

theorem filter_receipts_other (l : List (Int × Bool)) (m m1 : Int) (h : m1 ≠ m) :
    (l.map (fun e => ({ message_id := m1, user_id := e.1 } : ReadRow))).filter
      (fun mr => decide (mr.message_id = m)) = [] := by
  rw [List.filter_eq_nil_iff]
  intro mr hmr
  rcases List.mem_map.1 hmr with ⟨e, _, rfl⟩
  simpa using h

theorem filter_receipts_self (l : List (Int × Bool)) (m : Int) :
    (l.map (fun e => ({ message_id := m, user_id := e.1 } : ReadRow))).filter
      (fun mr => decide (mr.message_id = m))
      = l.map (fun e => ({ message_id := m, user_id := e.1 } : ReadRow)) := by
  rw [List.filter_eq_self]
  intro mr hmr
  rcases List.mem_map.1 hmr with ⟨e, _, rfl⟩
  simp

theorem historyStep_filter_other (username : String) (q isGroup : Int) (ru : GoMap Int Bool)
    (acc : List ChatMessage × Store) (r : HistoryRow) (m : Int) (h : r.id ≠ m) :
    (historyStep username q isGroup ru acc r).2.message_reads.filter
        (fun mr => decide (mr.message_id = m))
      = acc.2.message_reads.filter (fun mr => decide (mr.message_id = m)) := by
  unfold historyStep
  simp only
  rw [List.filter_append, filter_receipts_other _ m r.id h, List.append_nil]

/-- The loop of lines 129-182 over rows with distinct message ids: every row is handled
as if it were the first, because the receipts inserted for a row are for its message
only. -/
theorem foldl_historyStep (username : String) (q isGroup : Int) (ru : GoMap Int Bool)
    (rows : List HistoryRow) (hnd : (rows.map (fun row => row.id)).Nodup)
    (acc : List ChatMessage × Store) :
    rows.foldl (historyStep username q isGroup ru) acc
      = (acc.1 ++ rows.map (historyMsg username q isGroup ru acc.2),
         { acc.2 with message_reads := acc.2.message_reads ++
            (rows.map (fun row => (newReaders q ru acc.2 row.id).map
              (fun e => ({ message_id := row.id, user_id := e.1 } : ReadRow)))).flatten }) := by
  induction rows generalizing acc with
  | nil => simp
  | cons r rest ih =>
    rw [List.map_cons, List.nodup_cons] at hnd
    rw [List.foldl_cons, ih hnd.2]
    have hne : ∀ row ∈ rest, r.id ≠ row.id := fun row hrow he =>
      hnd.1 (he ▸ List.mem_map_of_mem (fun row => row.id) hrow)
    have h1 : rest.map (historyMsg username q isGroup ru (historyStep username q isGroup ru acc r).2)
        = rest.map (historyMsg username q isGroup ru acc.2) := by
      apply List.map_congr_left
      intro row hrow
      exact historyMsg_congr _ _ _ _ _ _ _ rfl
        (historyStep_filter_other username q isGroup ru acc r row.id (hne row hrow))
    have h2 : rest.map (fun row =>
          (newReaders q ru (historyStep username q isGroup ru acc r).2 row.id).map
            (fun e => ({ message_id := row.id, user_id := e.1 } : ReadRow)))
        = rest.map (fun row => (newReaders q ru acc.2 row.id).map
            (fun e => ({ message_id := row.id, user_id := e.1 } : ReadRow))) := by
      apply List.map_congr_left
      intro row hrow
      rw [newReaders_congr q ru _ acc.2 row.id
        (historyStep_filter_other username q isGroup ru acc r row.id (hne row hrow))]
    rw [h1, h2]
    simp [historyStep, List.append_assoc]

theorem users_filter_length_le_one (users : List UserRow)
    (hu : (users.map (fun u => u.id)).Nodup) (x : Int) :
    (users.filter (fun u => decide (x = u.id))).length ≤ 1 := by
  induction users with
  | nil => simp
  | cons a l ih =>
    rw [List.map_cons, List.nodup_cons] at hu
    by_cases h : x = a.id
    · rw [List.filter_cons_of_pos (by simpa using h)]
      have hnil : l.filter (fun u => decide (x = u.id)) = [] := by
        rw [List.filter_eq_nil_iff]
        intro u hul
        have : ¬ x = u.id := fun hx =>
          hu.1 (by rw [← h, hx]; exact List.mem_map_of_mem (fun u => u.id) hul)
        simpa using this
      rw [hnil]
      simp
    · rw [List.filter_cons_of_neg (by simpa using h)]
      exact ih hu.2

theorem join_ids_sublist (users : List UserRow) (hu : (users.map (fun u => u.id)).Nodup)
    (msgs : List MessageRow) :
    ((msgs.flatMap (fun m => (users.filter (fun u => decide (m.sender_id = u.id))).map
        (fun u => (m, u)))).map (fun mu => mu.1.id)).Sublist (msgs.map (fun m => m.id)) := by
  induction msgs with
  | nil => simp
  | cons m rest ih =>
    rw [List.flatMap_cons, List.map_append, List.map_cons]
    have hone : (((users.filter (fun u => decide (m.sender_id = u.id))).map
        (fun u => (m, u))).map (fun mu => mu.1.id)).Sublist [m.id] := by
      have hlen := users_filter_length_le_one users hu m.sender_id
      generalize users.filter (fun u => decide (m.sender_id = u.id)) = fl at hlen
      match fl, hlen with
      | [], _ => simp
      | [u], _ => simp
      | u :: v :: t, hlen => simp at hlen
    exact List.Sublist.append hone ih

/-- The rows of the history query carry pairwise distinct message ids when `id` is a key
of `messages` and of `users`. -/
theorem historyJoin_nodup (db : Store) (R : Int)
    (hm : (db.messages.map (fun m => m.id)).Nodup)
    (hu : (db.users.map (fun u => u.id)).Nodup) :
    ((historyJoin db R).map (fun mu => mu.1.id)).Nodup := by
  unfold historyJoin
  refine ((List.perm_insertionSort _ _).map _).nodup_iff.2 ?_
  refine (join_ids_sublist db.users hu _).nodup ?_
  exact (List.Sublist.map _ (List.filter_sublist db.messages)).nodup hm

theorem contains_receipts (reads : List ReadRow) (m p : Int) :
    contains ((reads.filter (fun mr => decide (mr.message_id = m))).map (fun mr => mr.user_id)) p
      = reads.any (fun mr => decide (mr.message_id = m) && decide (mr.user_id = p)) := by
  rw [Bool.eq_iff_iff, contains_eq_true_iff, List.any_eq_true]
  constructor
  · intro h
    rcases List.mem_map.1 h with ⟨mr, hmr, hp⟩
    rcases List.mem_filter.1 hmr with ⟨h1, h2⟩
    exact ⟨mr, h1, by simpa [hp] using h2⟩
  · rintro ⟨mr, h1, h2⟩
    simp only [Bool.and_eq_true, decide_eq_true_eq] at h2
    exact List.mem_map.2 ⟨mr, List.mem_filter.2 ⟨h1, by simpa using h2.1⟩, h2.2⟩

/-- The identities for which the loop inserts a receipt are the ones the claim counts. -/
theorem newReaders_fst (presence : PresenceMap) (db : Store) (R q m : Int) :
    (newReaders q ((presence.lookup R).getD GoMap.empty) db m).map Prod.fst
      = unreadPresent presence db R q m := by
  unfold newReaders unreadPresent GoMap.keys
  rw [List.filter_map]
  congr 1
  apply List.filter_congr
  intro e he
  have hp : IsPresent presence R e.1 = e.2 := by
    unfold IsPresent
    cases hl : presence.lookup R with
    | none =>
      rw [hl] at he
      simp [GoMap.empty] at he
    | some mm =>
      rw [hl] at he
      simp only [Option.getD_some] at he
      simp [GoMap.lookup_of_mem_entries mm e he]
  simp only [Function.comp, hp, contains_receipts]

theorem newReaders_nodup (q : Int) (ru : GoMap Int Bool) (db : Store) (m : Int) :
    ((newReaders q ru db m).map Prod.fst).Nodup :=
  (List.Sublist.map Prod.fst (List.filter_sublist ru.entries)).nodup ru.nodupKeys

theorem count_receipts (l : List (Int × Bool)) (hl : (l.map Prod.fst).Nodup) (m1 m p : Int) :
    (l.map (fun e => ({ message_id := m1, user_id := e.1 } : ReadRow))).count
        { message_id := m, user_id := p }
      = if m1 = m ∧ p ∈ l.map Prod.fst then 1 else 0 := by
  by_cases h : m1 = m ∧ p ∈ l.map Prod.fst
  · rw [if_pos h]
    obtain ⟨h1, h2⟩ := h
    subst h1
    have hmap : l.map (fun e => ({ message_id := m1, user_id := e.1 } : ReadRow))
        = (l.map Prod.fst).map (fun u => ({ message_id := m1, user_id := u } : ReadRow)) := by
      rw [List.map_map]; rfl
    have hinj : Function.Injective (fun u : Int => ({ message_id := m1, user_id := u } : ReadRow)) :=
      fun a b hab => by injection hab
    rw [hmap]
    exact List.count_eq_one_of_mem (hl.map hinj) (List.mem_map_of_mem _ h2)
  · rw [if_neg h]
    apply List.count_eq_zero_of_not_mem
    intro hmem
    rcases List.mem_map.1 hmem with ⟨e, he, heq⟩
    injection heq with h1 h2
    exact h ⟨h1, h2 ▸ List.mem_map_of_mem Prod.fst he⟩

/-- Each receipt the fetch inserts is inserted once: for a message of the result and an
identity the loop selects for it. -/
theorem count_inserted (q : Int) (ru : GoMap Int Bool) (db : Store) (rows : List HistoryRow)
    (hnd : (rows.map (fun row => row.id)).Nodup) (m p : Int) :
    ((rows.map (fun row => (newReaders q ru db row.id).map
        (fun e => ({ message_id := row.id, user_id := e.1 } : ReadRow)))).flatten).count
        { message_id := m, user_id := p }
      = if m ∈ rows.map (fun row => row.id) ∧ p ∈ (newReaders q ru db m).map Prod.fst
        then 1 else 0 := by
  induction rows with
  | nil => simp
  | cons r rest ih =>
    rw [List.map_cons, List.nodup_cons] at hnd
    rw [List.map_cons, List.flatten_cons, List.count_append, ih hnd.2,
      count_receipts _ (newReaders_nodup q ru db r.id), List.map_cons]
    by_cases h : r.id = m
    · subst h
      by_cases hp : p ∈ (newReaders q ru db r.id).map Prod.fst
      · simp [hp, hnd.1]
      · simp [hp]
    · have h2 : ¬ m = r.id := fun h3 => h h3.symm
      simp [h, h2]

/-- The history fetch in closed form, when `id` is a key of `messages` and of `users`. -/
theorem ChatHandlerGET_eq (username : String) (q R : Int) (presence : PresenceMap) (db : Store)
    (room : ChatRoomRow) (hm : (db.messages.map (fun m => m.id)).Nodup)
    (hu : (db.users.map (fun u => u.id)).Nodup)
    (hroom : db.chat_rooms.find? (fun c => decide (c.id = R)) = some room) :
    ChatHandlerGET username q R presence db
      = (some ((historyQuery db R).map
          (historyMsg username q room.is_group ((presence.lookup R).getD GoMap.empty) db)),
         { db with message_reads := db.message_reads ++
            ((historyQuery db R).map (fun row =>
              (newReaders q ((presence.lookup R).getD GoMap.empty) db row.id).map
                (fun e => ({ message_id := row.id, user_id := e.1 } : ReadRow)))).flatten }) := by
  have hnd : ((historyQuery db R).map (fun row => row.id)).Nodup := by
    unfold historyQuery
    rw [List.map_map]
    exact historyJoin_nodup db R hm hu
  unfold ChatHandlerGET
  rw [hroom]
  simp only
  rw [foldl_historyStep username q room.is_group _ _ hnd]
  simp

theorem historyQuery_nodup (db : Store) (R : Int)
    (hm : (db.messages.map (fun m => m.id)).Nodup)
    (hu : (db.users.map (fun u => u.id)).Nodup) :
    ((historyQuery db R).map (fun row => row.id)).Nodup := by
  unfold historyQuery
  rw [List.map_map]
  exact historyJoin_nodup db R hm hu

theorem historyQuery_read_count (db : Store) (R : Int) (row : HistoryRow)
    (h : row ∈ historyQuery db R) :
    row.read_count
      = ((db.message_reads.filter (fun mr => decide (mr.message_id = row.id))).length : Int) := by
  unfold historyQuery at h
  rcases List.mem_map.1 h with ⟨mu, _, rfl⟩
  rfl

theorem historyMsg_readCount (username : String) (q isGroup : Int) (ru : GoMap Int Bool)
    (db : Store) (row : HistoryRow) :
    (historyMsg username q isGroup ru db row).ReadCount
      = row.read_count + ((newReaders q ru db row.id).length : Int) := by
  unfold historyMsg
  simp only
  split_ifs with h
  · rfl
  · have h0 : ((newReaders q ru db row.id).length : Int) = 0 := by omega
    rw [h0, add_zero]

/-- C9: for every message returned by a history fetch of room `R` by requester `q`
(message and user ids being keys of their tables), the returned `read_count` is the
number of receipts stored for the message before the fetch plus the number of identities
`p`, other than `q`, that are present in `R` and had no stored receipt for it; exactly
one receipt `(message, p)` is inserted for each such `p`, and no other receipt. -/
theorem history_fetch_read_count (username : String) (q R : Int) (presence : PresenceMap)
    (db : Store) (room : ChatRoomRow) (hm : (db.messages.map (fun m => m.id)).Nodup)
    (hu : (db.users.map (fun u => u.id)).Nodup)
    (hroom : db.chat_rooms.find? (fun c => decide (c.id = R)) = some room) :
    ∃ out inserted,
      (ChatHandlerGET username q R presence db).1 = some out ∧
      (∀ msg ∈ out, msg.ReadCount
        = ((db.message_reads.filter (fun mr => decide (mr.message_id = msg.ID))).length : Int)
          + ((unreadPresent presence db R q msg.ID).length : Int)) ∧
      (ChatHandlerGET username q R presence db).2.message_reads
        = db.message_reads ++ inserted ∧
      ∀ m p : Int, inserted.count { message_id := m, user_id := p }
        = if m ∈ out.map (fun msg => msg.ID) ∧ p ∈ unreadPresent presence db R q m
          then 1 else 0 := by
  rw [ChatHandlerGET_eq username q R presence db room hm hu hroom]
  refine ⟨_, _, rfl, ?_, rfl, ?_⟩
  · intro msg hmsg
    rcases List.mem_map.1 hmsg with ⟨row, hrow, rfl⟩
    rw [historyMsg_readCount, historyQuery_read_count db R row hrow, ← newReaders_fst,
      List.length_map]
    rfl
  · intro m p
    rw [count_inserted _ _ _ _ (historyQuery_nodup db R hm hu), newReaders_fst, List.map_map]
    rfl

theorem history_fetch_read_count_witness :
    ∃ out inserted,
      (ChatHandlerGET "alice" 7 3 samplePresence sampleStore).1 = some out ∧
      (∀ msg ∈ out, msg.ReadCount
        = ((sampleStore.message_reads.filter
            (fun mr => decide (mr.message_id = msg.ID))).length : Int)
          + ((unreadPresent samplePresence sampleStore 3 7 msg.ID).length : Int)) ∧
      (ChatHandlerGET "alice" 7 3 samplePresence sampleStore).2.message_reads
        = sampleStore.message_reads ++ inserted ∧
      ∀ m p : Int, inserted.count { message_id := m, user_id := p }
        = if m ∈ out.map (fun msg => msg.ID) ∧ p ∈ unreadPresent samplePresence sampleStore 3 7 m
          then 1 else 0 :=
  history_fetch_read_count "alice" 7 3 samplePresence sampleStore ⟨3, 1⟩ (by decide) (by decide)
    rfl

theorem filter_inserted (q : Int) (ru : GoMap Int Bool) (db : Store) (rows : List HistoryRow)
    (hnd : (rows.map (fun row => row.id)).Nodup) (m : Int) :
    ((rows.map (fun row => (newReaders q ru db row.id).map
        (fun e => ({ message_id := row.id, user_id := e.1 } : ReadRow)))).flatten).filter
        (fun mr => decide (mr.message_id = m))
      = if m ∈ rows.map (fun row => row.id) then
          (newReaders q ru db m).map (fun e => ({ message_id := m, user_id := e.1 } : ReadRow))
        else [] := by
  induction rows with
  | nil => simp
  | cons r rest ih =>
    rw [List.map_cons, List.nodup_cons] at hnd
    rw [List.map_cons, List.flatten_cons, List.filter_append, ih hnd.2, List.map_cons]
    by_cases h : r.id = m
    · subst h
      rw [filter_receipts_self, if_neg hnd.1, if_pos (List.mem_cons_self _ _), List.append_nil]
    · rw [filter_receipts_other _ m r.id h, List.nil_append]
      have h2 : ¬ m = r.id := fun h3 => h h3.symm
      simp [h2]

/-- After the receipts of a fetch are stored, the loop of lines 152-159 selects nobody
for a message of the result. -/
theorem newReaders_after (q : Int) (ru : GoMap Int Bool) (db db1 : Store) (m : Int)
    (h : db1.message_reads.filter (fun mr => decide (mr.message_id = m))
      = db.message_reads.filter (fun mr => decide (mr.message_id = m))
        ++ (newReaders q ru db m).map
          (fun e => ({ message_id := m, user_id := e.1 } : ReadRow))) :
    newReaders q ru db1 m = [] := by
  have hdef : newReaders q ru db1 m = ru.entries.filter (fun e => decide (e.1 ≠ q) && e.2 &&
      !contains ((db1.message_reads.filter (fun mr => decide (mr.message_id = m))).map
        (fun mr => mr.user_id)) e.1) := rfl
  rw [hdef, h, List.filter_eq_nil_iff]
  intro e he hsel
  simp only [Bool.and_eq_true, Bool.not_eq_true', decide_eq_true_eq] at hsel
  obtain ⟨⟨h1, h2⟩, h3⟩ := hsel
  have hnot : ¬ contains ((db.message_reads.filter (fun mr => decide (mr.message_id = m))
      ++ (newReaders q ru db m).map
        (fun e => ({ message_id := m, user_id := e.1 } : ReadRow))).map
          (fun mr => mr.user_id)) e.1 = true := by rw [h3]; exact Bool.false_ne_true
  apply hnot
  rw [contains_eq_true_iff, List.map_append, List.mem_append]
  by_cases hc : contains ((db.message_reads.filter
      (fun mr => decide (mr.message_id = m))).map (fun mr => mr.user_id)) e.1 = true
  · exact Or.inl ((contains_eq_true_iff _ _).1 hc)
  · right
    have hin : e ∈ newReaders q ru db m := by
      unfold newReaders
      exact List.mem_filter.2 ⟨he, by simp [h1, h2, hc]⟩
    rw [List.map_map]
    exact List.mem_map.2 ⟨e, hin, rfl⟩

theorem historyMsg_ext (username : String) (q isGroup : Int) (ru : GoMap Int Bool)
    (dbA dbB : Store) (rowA rowB : HistoryRow) (hid : rowA.id = rowB.id)
    (hc : rowA.content = rowB.content) (hun : rowA.username = rowB.username)
    (hcl : rowA.client_id = rowB.client_id)
    (hatt : dbA.message_attachments = dbB.message_attachments)
    (hrc : (historyMsg username q isGroup ru dbA rowA).ReadCount
      = (historyMsg username q isGroup ru dbB rowB).ReadCount) :
    historyMsg username q isGroup ru dbA rowA = historyMsg username q isGroup ru dbB rowB := by
  have hA : historyMsg username q isGroup ru dbA rowA
      = { historyMsg username q isGroup ru dbA rowA with
          ReadCount := (historyMsg username q isGroup ru dbB rowB).ReadCount } := by
    rw [← hrc]
  rw [hA]
  unfold historyMsg
  simp only [hid, hc, hun, hcl, hatt]

/-- The second of two fetches in a row rebuilds each message of the first. -/
theorem second_fetch_msg (username : String) (q R isGroup : Int) (ru : GoMap Int Bool)
    (db : Store) (hm : (db.messages.map (fun m => m.id)).Nodup)
    (hu : (db.users.map (fun u => u.id)).Nodup) (db1 : Store)
    (hatt : db1.message_attachments = db.message_attachments)
    (hreads : db1.message_reads = db.message_reads ++
      ((historyQuery db R).map (fun row => (newReaders q ru db row.id).map
        (fun e => ({ message_id := row.id, user_id := e.1 } : ReadRow)))).flatten)
    (mu : MessageRow × UserRow) (hmu : mu ∈ historyJoin db R) :
    newReaders q ru db1 mu.1.id = [] ∧
    historyMsg username q isGroup ru db1
        { id := mu.1.id, content := mu.1.content, username := mu.2.username,
          read_count := ((db1.message_reads.filter
            (fun mr => decide (mr.message_id = mu.1.id))).length : Int),
          client_id := mu.1.client_id }
      = historyMsg username q isGroup ru db
        { id := mu.1.id, content := mu.1.content, username := mu.2.username,
          read_count := ((db.message_reads.filter
            (fun mr => decide (mr.message_id = mu.1.id))).length : Int),
          client_id := mu.1.client_id } := by
  have hmem : mu.1.id ∈ (historyQuery db R).map (fun row => row.id) := by
    unfold historyQuery
    rw [List.map_map]
    exact List.mem_map.2 ⟨mu, hmu, rfl⟩
  have hfilter : db1.message_reads.filter (fun mr => decide (mr.message_id = mu.1.id))
      = db.message_reads.filter (fun mr => decide (mr.message_id = mu.1.id))
        ++ (newReaders q ru db mu.1.id).map
          (fun e => ({ message_id := mu.1.id, user_id := e.1 } : ReadRow)) := by
    rw [hreads, List.filter_append,
      filter_inserted q ru db _ (historyQuery_nodup db R hm hu) mu.1.id, if_pos hmem]
  have hnil := newReaders_after q ru db db1 mu.1.id hfilter
  refine ⟨hnil, ?_⟩
  have hrc : (historyMsg username q isGroup ru db1
        { id := mu.1.id, content := mu.1.content, username := mu.2.username,
          read_count := ((db1.message_reads.filter
            (fun mr => decide (mr.message_id = mu.1.id))).length : Int),
          client_id := mu.1.client_id }).ReadCount
      = (historyMsg username q isGroup ru db
        { id := mu.1.id, content := mu.1.content, username := mu.2.username,
          read_count := ((db.message_reads.filter
            (fun mr => decide (mr.message_id = mu.1.id))).length : Int),
          client_id := mu.1.client_id }).ReadCount := by
    rw [historyMsg_readCount, historyMsg_readCount]
    simp only
    rw [hnil, hfilter, List.length_append, List.length_map]
    simp
  exact historyMsg_ext username q isGroup ru db1 db _ _ rfl rfl rfl rfl hatt hrc

/-- Two fetches in a row for a room that has a row in `chat_rooms`. -/
theorem second_fetch_same (username : String) (q R : Int) (presence : PresenceMap)
    (db : Store) (room : ChatRoomRow) (hm : (db.messages.map (fun m => m.id)).Nodup)
    (hu : (db.users.map (fun u => u.id)).Nodup)
    (hroom : db.chat_rooms.find? (fun c => decide (c.id = R)) = some room) :
    ∃ out,
      (ChatHandlerGET username q R presence db).1 = some out ∧
      (ChatHandlerGET username q R presence (ChatHandlerGET username q R presence db).2).1
        = some out ∧
      (ChatHandlerGET username q R presence
          (ChatHandlerGET username q R presence db).2).2.message_reads
        = (ChatHandlerGET username q R presence db).2.message_reads := by
  rw [ChatHandlerGET_eq username q R presence db room hm hu hroom]
  simp only
  generalize hdb1 : ({ db with message_reads := db.message_reads ++
      ((historyQuery db R).map (fun row =>
        (newReaders q ((presence.lookup R).getD GoMap.empty) db row.id).map
          (fun e => ({ message_id := row.id, user_id := e.1 } : ReadRow)))).flatten } : Store)
    = db1
  have hm1 : (db1.messages.map (fun m => m.id)).Nodup := by rw [← hdb1]; exact hm
  have hu1 : (db1.users.map (fun u => u.id)).Nodup := by rw [← hdb1]; exact hu
  have hroom1 : db1.chat_rooms.find? (fun c => decide (c.id = R)) = some room := by
    rw [← hdb1]; exact hroom
  have hjoin : historyJoin db1 R = historyJoin db R := by rw [← hdb1]; rfl
  have hreads : db1.message_reads = db.message_reads ++
      ((historyQuery db R).map (fun row =>
        (newReaders q ((presence.lookup R).getD GoMap.empty) db row.id).map
          (fun e => ({ message_id := row.id, user_id := e.1 } : ReadRow)))).flatten := by
    rw [← hdb1]
  have hrow := second_fetch_msg username q R room.is_group
    ((presence.lookup R).getD GoMap.empty) db hm hu db1 (by rw [← hdb1]) hreads
  rw [ChatHandlerGET_eq username q R presence db1 room hm1 hu1 hroom1]
  refine ⟨_, rfl, ?_, ?_⟩
  · simp only [Option.some.injEq]
    unfold historyQuery
    rw [hjoin, List.map_map, List.map_map]
    apply List.map_congr_left
    intro mu hmu
    exact (hrow mu hmu).2
  · simp only
    have hnil : ((historyQuery db1 R).map
        (fun row => (newReaders q ((presence.lookup R).getD GoMap.empty) db1 row.id).map
          (fun e => ({ message_id := row.id, user_id := e.1 } : ReadRow)))).flatten = [] := by
      rw [List.flatten_eq_nil_iff]
      intro l hl
      rcases List.mem_map.1 hl with ⟨row, hrow1, rfl⟩
      unfold historyQuery at hrow1
      rw [hjoin] at hrow1
      rcases List.mem_map.1 hrow1 with ⟨mu, hmu, rfl⟩
      have := (hrow mu hmu).1
      simp only at this ⊢
      rw [this]
      rfl
    rw [hnil, List.append_nil, hreads]

/-- C10: for every store state (message and user ids being keys) and presence state,
when the history fetch is run twice in a row for the same room and identity with nothing
in between, the second run inserts zero read receipts and returns what the first run
returned: the same messages, each with the same `read_count`. -/
theorem history_fetch_idempotent (username : String) (q R : Int) (presence : PresenceMap)
    (db : Store) (hm : (db.messages.map (fun m => m.id)).Nodup)
    (hu : (db.users.map (fun u => u.id)).Nodup) :
    (ChatHandlerGET username q R presence (ChatHandlerGET username q R presence db).2).1
        = (ChatHandlerGET username q R presence db).1 ∧
    (ChatHandlerGET username q R presence
          (ChatHandlerGET username q R presence db).2).2.message_reads
        = (ChatHandlerGET username q R presence db).2.message_reads := by
  cases hroom : db.chat_rooms.find? (fun c => decide (c.id = R)) with
  | none =>
    have h0 : ChatHandlerGET username q R presence db = (none, db) := by
      unfold ChatHandlerGET
      rw [hroom]
    rw [h0]
    simp only
    rw [h0]
    exact ⟨rfl, rfl⟩
  | some room =>
    obtain ⟨out, h1, h2, h3⟩ := second_fetch_same username q R presence db room hm hu hroom
    exact ⟨h2.trans h1.symm, h3⟩

theorem history_fetch_idempotent_witness :
    (ChatHandlerGET "alice" 7 3 samplePresence
          (ChatHandlerGET "alice" 7 3 samplePresence sampleStore).2).1
        = (ChatHandlerGET "alice" 7 3 samplePresence sampleStore).1 ∧
    (ChatHandlerGET "alice" 7 3 samplePresence
          (ChatHandlerGET "alice" 7 3 samplePresence sampleStore).2).2.message_reads
        = (ChatHandlerGET "alice" 7 3 samplePresence sampleStore).2.message_reads :=
  history_fetch_idempotent "alice" 7 3 samplePresence sampleStore (by decide) (by decide)

/-! ### Registry removal, unknown actions and ignored frames -/

/-- C12: for every registry state, `RemoveRoomConnection(roomID, c)` when `c` is not in
the session list of `roomID` (also when `roomID` has no entry at all) and
`RemoveGlobalConnection(c)` when `c` is not in the global list leave the state, so
`roomConns` and `globalConns`, unchanged; both are total, there is no error to raise. -/
theorem remove_absent_noop (roomID : Int) (c : Connection) (s : Server) :
    (c ∉ (s.roomConns.lookup roomID).getD [] → RemoveRoomConnection roomID c s = s) ∧
    (s.roomConns.lookup roomID = none → RemoveRoomConnection roomID c s = s) ∧
    (c ∉ s.globalConns → RemoveGlobalConnection c s = s) := by
  have hroom : c ∉ (s.roomConns.lookup roomID).getD [] → RemoveRoomConnection roomID c s = s := by
    intro h
    unfold RemoveRoomConnection
    have hany : ((s.roomConns.lookup roomID).getD []).any (fun a => decide (a = c)) = false := by
      rw [List.any_eq_false]
      intro a ha hac
      exact h (by rw [← of_decide_eq_true hac]; exact ha)
    simp only [hany]
    rfl
  refine ⟨hroom, ?_, ?_⟩
  · intro h
    apply hroom
    rw [h]
    simp
  · intro h
    unfold RemoveGlobalConnection
    have herase : s.globalConns.eraseP (fun a => decide (a = c)) = s.globalConns := by
      apply List.eraseP_of_forall_not
      intro a ha hac
      exact h (by rw [← of_decide_eq_true hac]; exact ha)
    rw [herase]

theorem remove_absent_noop_witness :
    RemoveRoomConnection 3 ⟨5, 7, 3⟩ (AddRoomConnection 3 ⟨4, 9, 3⟩ Server.init)
      = AddRoomConnection 3 ⟨4, 9, 3⟩ Server.init ∧
    RemoveRoomConnection 8 ⟨5, 7, 3⟩ (AddRoomConnection 3 ⟨4, 9, 3⟩ Server.init)
      = AddRoomConnection 3 ⟨4, 9, 3⟩ Server.init ∧
    RemoveGlobalConnection ⟨5, 7, 0⟩ (AddGlobalConnection ⟨4, 9, 0⟩ Server.init)
      = AddGlobalConnection ⟨4, 9, 0⟩ Server.init :=
  have h1 := remove_absent_noop 3 ⟨5, 7, 3⟩ (AddRoomConnection 3 ⟨4, 9, 3⟩ Server.init)
  have h2 := remove_absent_noop 8 ⟨5, 7, 3⟩ (AddRoomConnection 3 ⟨4, 9, 3⟩ Server.init)
  have h3 := remove_absent_noop 3 ⟨5, 7, 0⟩ (AddGlobalConnection ⟨4, 9, 0⟩ Server.init)
  ⟨h1.1 (by decide), h2.2.1 (by decide), h3.2.2 (by decide)⟩

/-- C15: for every presence state, room `r`, identity `u` and action string other than
"enter" and "leave", `updatePresence(r, u, action)` leaves the presence relation
unchanged: `IsPresent(r1, u1)` has the same value before and after for every room `r1`
and identity `u1`. -/
theorem unknown_action_ignored (p : PresenceMap) (r u : Int) (action : String)
    (h1 : action ≠ "enter") (h2 : action ≠ "leave") (r1 u1 : Int) :
    IsPresent (updatePresence r u action p) r1 u1 = IsPresent p r1 u1 :=
  isPresent_otherAction p r u action h1 h2 r1 u1

theorem unknown_action_ignored_witness :
    IsPresent (updatePresence 5 7 "dance" samplePresence) 3 7 = IsPresent samplePresence 3 7 ∧
    IsPresent (updatePresence 5 7 "" samplePresence) 5 7 = IsPresent samplePresence 5 7 :=
  ⟨unknown_action_ignored samplePresence 5 7 "dance" (by decide) (by decide) 3 7,
    unknown_action_ignored samplePresence 5 7 "" (by decide) (by decide) 5 7⟩

theorem handleFrame_ignored (username : String) (userID roomID : Int) (s : Server)
    (frame : ChatMessage) (h1 : frame.Type_ ≠ "message") (h2 : frame.Type_ ≠ "")
    (h3 : frame.Type_ ≠ "read") : handleFrame username userID roomID s frame = s := by
  unfold handleFrame
  simp only [h1, h2, h3, if_false, or_self]
  split_ifs <;> rfl

/-- C16: for every inbound room frame whose type is "ping" or any string other than
"message", "" and "read", `HandleWebSocket` enqueues no outbound event and changes
neither the session registry nor presence (the state after the frame is the state before
it), and it keeps reading: the frames that follow are handled as if the frame had not
been sent, the connection is not closed because of it. -/
theorem ignored_frame_no_effect (jwtParse : String → Option Frame) (r : Request)
    (upgrade : Option Nat) (username : String) (userID roomID : Int) (s s0 : Server)
    (before after : List ChatMessage) (frame : ChatMessage)
    (h1 : frame.Type_ ≠ "message") (h2 : frame.Type_ ≠ "") (h3 : frame.Type_ ≠ "read") :
    handleFrame username userID roomID s frame = s ∧
    HandleWebSocket jwtParse r upgrade (before ++ frame :: after) s0
      = HandleWebSocket jwtParse r upgrade (before ++ after) s0 := by
  refine ⟨handleFrame_ignored username userID roomID s frame h1 h2 h3, ?_⟩
  unfold HandleWebSocket
  simp only [List.foldl_append, List.foldl_cons, handleFrame_ignored _ _ _ _ frame h1 h2 h3]

theorem ignored_frame_no_effect_witness :
    handleFrame "alice" 7 3 sampleServer { sampleMsg with Type_ := "ping" } = sampleServer ∧
    HandleWebSocket sampleJwtParse ⟨"3", "tok-alice"⟩ (some 9)
        ([sampleMsg] ++ { sampleMsg with Type_ := "ping" } :: [sampleMsg]) sampleServer
      = HandleWebSocket sampleJwtParse ⟨"3", "tok-alice"⟩ (some 9) ([sampleMsg] ++ [sampleMsg])
        sampleServer :=
  ignored_frame_no_effect sampleJwtParse ⟨"3", "tok-alice"⟩ (some 9) "alice" 7 3 sampleServer
    sampleServer [sampleMsg] [sampleMsg] { sampleMsg with Type_ := "ping" }
    (by decide) (by decide) (by decide)

/-! ### Global broadcast -/

theorem foldl_writeJSON (fails : Nat → Bool) (msg : Payload) (l : List Connection) (s : Server) :
    (l.foldl (fun s c => writeJSON fails msg s c.Conn) s).globalConns = s.globalConns ∧
    (l.foldl (fun s c => writeJSON fails msg s c.Conn) s).closed = s.closed ∧
    (l.foldl (fun s c => writeJSON fails msg s c.Conn) s).roomPresenceMap = s.roomPresenceMap ∧
    (l.foldl (fun s c => writeJSON fails msg s c.Conn) s).sent
      = s.sent ++ (l.filter (fun c => !fails c.Conn)).map (fun c => (c.Conn, msg)) := by
  induction l generalizing s with
  | nil => simp
  | cons c l ih =>
    rw [List.foldl_cons]
    obtain ⟨h1, h2, h3, h4⟩ := ih (writeJSON fails msg s c.Conn)
    rw [h1, h2, h3, h4]
    unfold writeJSON
    by_cases hf : fails c.Conn = true
    · simp [hf]
    · simp [hf]

/-- The effect of `BroadcastGlobal` for every state and every set of failing writes: a
write error is only logged, so no session is closed and `globalConns` is left as it was,
the failing sessions included; the sessions whose write succeeds are written the event,
once per entry of `globalConns` and in its order. -/
theorem broadcastGlobal_logs_only (fails : Nat → Bool) (msg : Payload) (s : Server) :
    (BroadcastGlobal fails msg s).globalConns = s.globalConns ∧
    (BroadcastGlobal fails msg s).closed = s.closed ∧
    (BroadcastGlobal fails msg s).sent
      = s.sent ++ (s.globalConns.filter (fun c => !fails c.Conn)).map
          (fun c => (c.Conn, msg)) := by
  obtain ⟨h1, h2, _, h4⟩ := foldl_writeJSON fails msg s.globalConns s
  exact ⟨h1, h2, h4⟩

/-- C13 (the code at the failing input): `globalConns` holds handle 1 of identity 7 and
handle 2 of identity 9, and the write on handle 1 returns an error.  `BroadcastGlobal`
writes the event to handle 2, which the claim says too, but the session of handle 1 is
still in `globalConns` and has not been closed, where the claim says closed and removed.
`StartBroadcaster` does what the claim says for the same failure on a room session: the
failing handle 2 of room 3 is closed and deleted from the room's set. -/
theorem broadcastGlobal_failed_stays :
    (fun c => decide (c = 1)) 1 = true ∧
    receivedBy (BroadcastGlobal (fun c => decide (c = 1))
      (Payload.json GoMap.empty) sampleGlobalServer) 2 = [Payload.json GoMap.empty] ∧
    (⟨1, 7, 0⟩ : Connection) ∈ (BroadcastGlobal (fun c => decide (c = 1))
      (Payload.json GoMap.empty) sampleGlobalServer).globalConns ∧
    1 ∉ (BroadcastGlobal (fun c => decide (c = 1))
      (Payload.json GoMap.empty) sampleGlobalServer).closed ∧
    2 ∈ (broadcastEvent (fun c => decide (c = 2)) sampleMsg sampleServer).closed ∧
    ((broadcastEvent (fun c => decide (c = 2)) sampleMsg sampleServer).roomClients.lookup
      3).map GoMap.keys = some [4, 1] := by
  decide

/-! ### Teardown -/

theorem handleFrame_keeps (username : String) (userID roomID : Int) (s : Server)
    (frame : ChatMessage) :
    (handleFrame username userID roomID s frame).roomPresenceMap = s.roomPresenceMap ∧
    (handleFrame username userID roomID s frame).roomClients = s.roomClients ∧
    (handleFrame username userID roomID s frame).closed = s.closed := by
  unfold handleFrame
  simp only
  split_ifs <;> exact ⟨rfl, rfl, rfl⟩

theorem foldl_handleFrame_keeps (username : String) (userID roomID : Int)
    (frames : List ChatMessage) (s : Server) :
    (frames.foldl (handleFrame username userID roomID) s).roomPresenceMap = s.roomPresenceMap ∧
    (frames.foldl (handleFrame username userID roomID) s).roomClients = s.roomClients ∧
    (frames.foldl (handleFrame username userID roomID) s).closed = s.closed := by
  induction frames generalizing s with
  | nil => exact ⟨rfl, rfl, rfl⟩
  | cons f rest ih =>
    rw [List.foldl_cons]
    obtain ⟨h1, h2, h3⟩ := ih (handleFrame username userID roomID s f)
    obtain ⟨g1, g2, g3⟩ := handleFrame_keeps username userID roomID s f
    exact ⟨h1.trans g1, h2.trans g2, h3.trans g3⟩

theorem GoMap.not_mem_keys_delete {K V : Type} [DecidableEq K] (m : GoMap K V) (k : K) :
    k ∉ (m.delete k).keys := by
  intro h
  rcases List.mem_map.1 h with ⟨e, he, hk⟩
  have := (List.mem_filter.1 he).2
  simp [hk] at this

/-- A served call of `HandleWebSocket`: the state `s2` when the read loop ends has the
presence map, and the closed handles, of the start; the deferred teardown then deletes
the connection from the room's set and closes it. -/
theorem HandleWebSocket_served (jwtParse : String → Option Frame) (r : Request)
    (frames : List ChatMessage) (s : Server) (roomID : Int) (conn : Nat) (claims : UserClaims)
    (hroom : Atoi r.roomId = some roomID) (ht : r.token ≠ "")
    (hv : validateJWTFromTokenString jwtParse r.token = Except.ok claims) :
    ∃ s2 : Server, s2.roomPresenceMap = s.roomPresenceMap ∧ s2.closed = s.closed ∧
      HandleWebSocket jwtParse r (some conn) frames s
        = (Outcome.served,
            { s2 with
              roomClients := s2.roomClients.modify roomID (fun clients => clients.delete conn),
              closed := s2.closed ++ [conn] }) := by
  unfold HandleWebSocket
  rw [hroom]
  dsimp only
  rw [if_neg ht, hv]
  dsimp only
  exact ⟨_, by exact (foldl_handleFrame_keeps _ _ _ frames _).1,
    by exact (foldl_handleFrame_keeps _ _ _ frames _).2.2, rfl⟩

theorem HandleWebSocket_presence (jwtParse : String → Option Frame) (r : Request)
    (upgrade : Option Nat) (frames : List ChatMessage) (s : Server) :
    (HandleWebSocket jwtParse r upgrade frames s).2.roomPresenceMap = s.roomPresenceMap := by
  cases hroom : Atoi r.roomId with
  | none =>
    unfold HandleWebSocket
    rw [hroom]
  | some roomID =>
    by_cases ht : r.token = ""
    · unfold HandleWebSocket
      rw [hroom]
      dsimp only
      rw [if_pos ht]
    · cases upgrade with
      | none =>
        unfold HandleWebSocket
        rw [hroom]
        dsimp only
        rw [if_neg ht]
      | some conn =>
        cases hv : validateJWTFromTokenString jwtParse r.token with
        | error e =>
          unfold HandleWebSocket
          rw [hroom]
          dsimp only
          rw [if_neg ht, hv]
        | ok claims =>
          obtain ⟨s2, h1, _, h3⟩ :=
            HandleWebSocket_served jwtParse r frames s roomID conn claims hroom ht hv
          rw [h3]
          exact h1

/-- C14 (counterexample): identity 7 is flagged present in room 3; its room session on
room 3 is served and torn down with no frame read, and identity 7 is still flagged
present in room 3. -/
theorem room_teardown_presence_stays :
    (HandleWebSocket sampleJwtParse ⟨"3", "tok-alice"⟩ (some 9) [] presentServer).1
      = Outcome.served ∧
    IsPresent (HandleWebSocket sampleJwtParse ⟨"3", "tok-alice"⟩ (some 9) []
      presentServer).2.roomPresenceMap 3 7 = true := by
  decide

/-- C14 (amended): when a room-scoped session is torn down (the read loop of
`HandleWebSocket` ends on a read error), the session is removed from its room's session
set and closed, and the presence map is left as it was before the call; it is the
teardown of the identity's notify session (`NotifyWebSocketHandler`) after which the
identity is present in no room of the presence map. -/
theorem room_teardown_keeps_presence (jwtParse : String → Option Frame)
    (fails : Nat → Nat → Bool) (r : Request) (conn : Nat) (claims : UserClaims)
    (frames : List ChatMessage) (messages : List (Option Frame)) (s : Server) (roomID : Int)
    (hroom : Atoi r.roomId = some roomID) (ht : r.token ≠ "")
    (hv : validateJWTFromTokenString jwtParse r.token = Except.ok claims) :
    ((HandleWebSocket jwtParse r (some conn) frames s).1 = Outcome.served ∧
      (∀ m, (HandleWebSocket jwtParse r (some conn) frames s).2.roomClients.lookup roomID
        = some m → conn ∉ m.keys) ∧
      conn ∈ (HandleWebSocket jwtParse r (some conn) frames s).2.closed ∧
      (HandleWebSocket jwtParse r (some conn) frames s).2.roomPresenceMap
        = s.roomPresenceMap) ∧
    ((NotifyWebSocketHandler jwtParse fails r (some conn) messages s).1 = Outcome.served ∧
      ∀ room, IsPresent (NotifyWebSocketHandler jwtParse fails r (some conn) messages
        s).2.roomPresenceMap room claims.UserID = false) := by
  constructor
  · obtain ⟨s2, _, _, h3⟩ :=
      HandleWebSocket_served jwtParse r frames s roomID conn claims hroom ht hv
    refine ⟨by rw [h3], ?_, by rw [h3]; simp, HandleWebSocket_presence _ _ _ _ _⟩
    intro m hm
    rw [h3] at hm
    simp only [GoMap.lookup_modify, if_true] at hm
    cases hl : s2.roomClients.lookup roomID with
    | none => rw [hl] at hm; cases hm
    | some m0 =>
      rw [hl] at hm
      simp only [Option.map_some', Option.some.injEq] at hm
      rw [← hm]
      exact GoMap.not_mem_keys_delete m0 conn
  · unfold NotifyWebSocketHandler
    rw [if_neg ht, hv]
    dsimp only
    refine ⟨rfl, ?_⟩
    intro room
    unfold removeFromAllRooms
    rw [isPresent_clear, if_pos rfl]

theorem room_teardown_keeps_presence_witness :
    ((HandleWebSocket sampleJwtParse ⟨"3", "tok-alice"⟩ (some 9) [sampleMsg]
        presentServer).1 = Outcome.served ∧
      (HandleWebSocket sampleJwtParse ⟨"3", "tok-alice"⟩ (some 9) [sampleMsg]
        presentServer).2.roomPresenceMap = presentServer.roomPresenceMap) ∧
    ∀ room, IsPresent (NotifyWebSocketHandler sampleJwtParse (fun _ _ => false)
      ⟨"3", "tok-alice"⟩ (some 9) [] presentServer).2.roomPresenceMap room 7 = false :=
  have h := room_teardown_keeps_presence sampleJwtParse (fun _ _ => false) ⟨"3", "tok-alice"⟩ 9
    ⟨"alice", 7⟩ [sampleMsg] [] presentServer 3 (by decide) (by decide) rfl
  ⟨⟨h.1.1, h.1.2.2.2⟩, h.2.2⟩

/-! ### Token verification -/

theorem validate_claims_rejected (jwtParse : String → Option Frame) (tokenStr : String)
    (claims : Frame) (hp : jwtParse tokenStr = some claims)
    (hbad : (∀ u, claims.lookup "username" = some (JSONValue.string u) → u = "") ∨
      ((∀ m e, claims.lookup "userId" ≠ some (JSONValue.float64 m e)) ∧
        (∀ v, claims.lookup "userId" = some (JSONValue.string v) → Atoi v = none))) :
    ∃ e, validateJWTFromTokenString jwtParse tokenStr = Except.error e := by
  unfold validateJWTFromTokenString
  by_cases ht : tokenStr = ""
  · rw [if_pos ht]
    exact ⟨_, rfl⟩
  · rw [if_neg ht, hp]
    dsimp only
    split
    · rename_i username hU
      by_cases hu : username = ""
      · rw [if_pos hu]
        exact ⟨_, rfl⟩
      · rw [if_neg hu]
        rcases hbad with hbad | ⟨hnum, hstr⟩
        · exact absurd (hbad username hU) hu
        · split
          · rename_i m e hI
            exact absurd hI (hnum m e)
          · rename_i v hI
            rw [hstr v hI]
            exact ⟨_, rfl⟩
          · exact ⟨_, rfl⟩
    · exact ⟨_, rfl⟩

theorem trimPrefix_unchanged (str pre : String) (h : ¬ pre.toList <+: str.toList) :
    TrimPrefix str pre = str := by
  unfold TrimPrefix
  have hb : pre.toList.isPrefixOf str.toList = false := by
    rw [Bool.eq_false_iff]
    intro hp
    exact h (List.isPrefixOf_iff_prefix.1 hp)
  rw [hb]
  rfl

/-- C17: `validateJWTFromTokenString` returns an error and no identity whenever the token
string is empty, signature or expiry verification fails (`jwt.Parse` rejects), the
`username` claim is absent, not a string or empty, or the `userId` claim is absent or is
neither a number nor a string that `strconv.Atoi` parses as a decimal integer; and
`validateJWT` returns an error whenever the `Authorization` header is empty, does not
start with "Bearer ", or is exactly "Bearer ". -/
theorem invalid_token_rejected (jwtParse : String → Option Frame)
    (tokenStr authHeader : String) :
    ((tokenStr = "" ∨ jwtParse tokenStr = none ∨
        ∃ claims, jwtParse tokenStr = some claims ∧
          ((∀ u, claims.lookup "username" = some (JSONValue.string u) → u = "") ∨
            ((∀ m e, claims.lookup "userId" ≠ some (JSONValue.float64 m e)) ∧
              (∀ v, claims.lookup "userId" = some (JSONValue.string v) → Atoi v = none)))) →
      ∃ e, validateJWTFromTokenString jwtParse tokenStr = Except.error e) ∧
    ((authHeader = "" ∨ ¬ "Bearer ".toList <+: authHeader.toList ∨ authHeader = "Bearer ") →
      ∃ e, validateJWT jwtParse authHeader = Except.error e) := by
  constructor
  · rintro (h | h | ⟨claims, hp, hbad⟩)
    · unfold validateJWTFromTokenString
      rw [if_pos h]
      exact ⟨_, rfl⟩
    · unfold validateJWTFromTokenString
      by_cases ht : tokenStr = ""
      · rw [if_pos ht]
        exact ⟨_, rfl⟩
      · rw [if_neg ht, h]
        exact ⟨_, rfl⟩
    · exact validate_claims_rejected jwtParse tokenStr claims hp hbad
  · rintro (h | h | h)
    · unfold validateJWT
      rw [if_pos h]
      exact ⟨_, rfl⟩
    · unfold validateJWT
      by_cases he : authHeader = ""
      · rw [if_pos he]
        exact ⟨_, rfl⟩
      · rw [if_neg he]
        dsimp only
        rw [if_pos (trimPrefix_unchanged authHeader "Bearer " h)]
        exact ⟨_, rfl⟩
    · subst h
      have h1 : TrimPrefix "Bearer " "Bearer " = "" := by decide
      unfold validateJWT
      rw [if_neg (by decide)]
      dsimp only
      rw [h1, if_neg (by decide)]
      unfold validateJWTFromTokenString
      rw [if_pos rfl]
      exact ⟨_, rfl⟩

theorem invalid_token_rejected_witness :
    (∃ e, validateJWTFromTokenString (fun _ => some badUserIdClaims) "tok" = Except.error e) ∧
    (∃ e, validateJWT sampleJwtParse "Basic tok-alice" = Except.error e) :=
  have h := invalid_token_rejected (fun _ => some badUserIdClaims) "tok" "Basic tok-alice"
  have h0 : badUserIdClaims.lookup "userId" = some (JSONValue.string "7x") := by decide
  have hnum : ∀ m e, badUserIdClaims.lookup "userId" ≠ some (JSONValue.float64 m e) := by
    intro m e hl
    rw [h0] at hl
    cases hl
  have hstr : ∀ v, badUserIdClaims.lookup "userId" = some (JSONValue.string v) →
      Atoi v = none := by
    intro v hl
    rw [h0] at hl
    cases hl
    decide
  ⟨h.1 (Or.inr (Or.inr ⟨badUserIdClaims, rfl, Or.inr ⟨hnum, hstr⟩⟩)),
    h.2 (Or.inr (Or.inl (by decide)))⟩

/-! ### Read status -/

theorem GoMap.mem_entries_of_lookup {K V : Type} [DecidableEq K] (m : GoMap K V) (k : K) (v : V)
    (h : m.lookup k = some v) : (k, v) ∈ m.entries := by
  unfold GoMap.lookup at h
  cases hf : m.entries.find? (fun e => decide (e.1 = k)) with
  | none => rw [hf] at h; cases h
  | some e =>
    rw [hf] at h
    have hk : e.1 = k := by simpa using List.find?_some hf
    have hv : e.2 = v := by simpa using h
    have hmem := List.mem_of_find?_eq_some hf
    rw [← hk, ← hv]
    exact hmem

/-- The test of lines 165-171: some entry of the room's presence map other than the
requester is flagged, exactly when some identity other than the requester is present. -/
theorem any_other_present (presence : PresenceMap) (R q : Int) :
    ((presence.lookup R).getD GoMap.empty).entries.any (fun e => decide (e.1 ≠ q) && e.2) = true
      ↔ ∃ p, p ≠ q ∧ IsPresent presence R p = true := by
  rw [List.any_eq_true]
  constructor
  · rintro ⟨e, he, hsel⟩
    simp only [Bool.and_eq_true, decide_eq_true_eq] at hsel
    refine ⟨e.1, hsel.1, ?_⟩
    unfold IsPresent
    cases hl : presence.lookup R with
    | none =>
      rw [hl] at he
      simp [GoMap.empty] at he
    | some mm =>
      rw [hl] at he
      simp only [Option.getD_some] at he
      simp [GoMap.lookup_of_mem_entries mm e he, hsel.2]
  · rintro ⟨p, hp, hpres⟩
    unfold IsPresent at hpres
    cases hl : presence.lookup R with
    | none => rw [hl] at hpres; cases hpres
    | some mm =>
      rw [hl] at hpres
      simp only at hpres
      cases hu : mm.lookup p with
      | none => rw [hu] at hpres; cases hpres
      | some b =>
        rw [hu] at hpres
        simp only [Option.getD_some] at hpres
        subst hpres
        refine ⟨(p, true), ?_, by simp [hp]⟩
        simp only [Option.getD_some]
        exact GoMap.mem_entries_of_lookup mm p true hu

theorem foldl_historyStep_mem (username : String) (q isGroup : Int) (ru : GoMap Int Bool)
    (rows : List HistoryRow) (acc : List ChatMessage × Store) :
    ∀ msg ∈ (rows.foldl (historyStep username q isGroup ru) acc).1,
      msg ∈ acc.1 ∨ ∃ db1 row, msg = historyMsg username q isGroup ru db1 row := by
  induction rows generalizing acc with
  | nil => intro msg h; exact Or.inl h
  | cons r rest ih =>
    intro msg h
    rw [List.foldl_cons] at h
    rcases ih _ msg h with h1 | h1
    · unfold historyStep at h1
      simp only [List.mem_append, List.mem_singleton] at h1
      rcases h1 with h2 | h2
      · exact Or.inl h2
      · exact Or.inr ⟨_, _, h2⟩
    · exact Or.inr h1

theorem historyMsg_status (username : String) (q : Int) (ru : GoMap Int Bool) (db : Store)
    (row : HistoryRow) :
    (historyMsg username q 0 ru db row).Sender = row.username ∧
    (historyMsg username q 0 ru db row).ReadStatus
      = if row.username = username then
          (if ru.entries.any (fun e => decide (e.1 ≠ q) && e.2) = true then "既読" else "未読")
        else "既読" := by
  constructor
  · rfl
  · unfold historyMsg
    by_cases h : row.username = username
    · simp [h]
    · simp [h]

/-- C11 (counterexample): room 3 is a non-group room of alice (7) and bob (9); bob is
absent, carol (11), who is not a member, is flagged present in room 3; alice fetches
history and her own message comes back as read (既読), not unread. -/
theorem two_party_stranger_read :
    IsPresent strangerPresence 3 9 = false ∧
    (ChatHandlerGET "alice" 7 3 strangerPresence twoPartyStore).1.map
        (fun out => out.map (fun msg => (msg.ID, msg.Sender, msg.ReadStatus)))
      = some [(1, "alice", "既読"), (2, "bob", "既読")] := by
  decide

/-- C11 (amended): in a non-group room (`is_group = 0`), when A fetches history: every
returned message whose sender name is A's username gets `read_status` "read" (既読) if
some identity other than A is flagged present in the room, B or any other, and "unread"
(未読) if no identity other than A is; every returned message whose sender name is not
A's username gets "read" whatever the presence state. -/
theorem two_party_read_status (username : String) (q R : Int) (presence : PresenceMap)
    (db : Store) (room : ChatRoomRow)
    (hroom : db.chat_rooms.find? (fun c => decide (c.id = R)) = some room)
    (hg : room.is_group = 0) :
    ∃ out, (ChatHandlerGET username q R presence db).1 = some out ∧
      ∀ msg ∈ out,
        (msg.Sender = username → (∃ p, p ≠ q ∧ IsPresent presence R p = true) →
          msg.ReadStatus = "既読") ∧
        (msg.Sender = username → (∀ p, p ≠ q → IsPresent presence R p = false) →
          msg.ReadStatus = "未読") ∧
        (msg.Sender ≠ username → msg.ReadStatus = "既読") := by
  unfold ChatHandlerGET
  rw [hroom]
  dsimp only
  refine ⟨_, rfl, ?_⟩
  intro msg hmsg
  rcases foldl_historyStep_mem username q room.is_group _ _ _ msg hmsg with h | ⟨db1, row, h⟩
  · simp at h
  · rw [hg] at h
    obtain ⟨hs, hr⟩ := historyMsg_status username q
      ((presence.lookup R).getD GoMap.empty) db1 row
    rw [← h] at hs hr
    rw [hs, hr]
    refine ⟨?_, ?_, ?_⟩
    · intro hu hp
      rw [if_pos hu, if_pos ((any_other_present presence R q).2 hp)]
    · intro hu hp
      rw [if_pos hu, if_neg]
      intro hany
      obtain ⟨p, hpq, hpres⟩ := (any_other_present presence R q).1 hany
      rw [hp p hpq] at hpres
      cases hpres
    · intro hu
      rw [if_neg hu]

theorem two_party_read_status_witness :
    ∃ out, (ChatHandlerGET "alice" 7 3 samplePresence twoPartyStore).1 = some out ∧
      ∀ msg ∈ out,
        (msg.Sender = "alice" → (∃ p, p ≠ 7 ∧ IsPresent samplePresence 3 p = true) →
          msg.ReadStatus = "既読") ∧
        (msg.Sender = "alice" → (∀ p, p ≠ 7 → IsPresent samplePresence 3 p = false) →
          msg.ReadStatus = "未読") ∧
        (msg.Sender ≠ "alice" → msg.ReadStatus = "既読") :=
  two_party_read_status "alice" 7 3 samplePresence twoPartyStore ⟨3, 0⟩ rfl rfl

/-! ### Lock discipline -/

theorem effectsOutsideLock_writes (l : List Connection) :
    effectsOutsideLock false (l.map (fun c => MutexEvent.write c.Conn)) = true := by
  induction l with
  | nil => rfl
  | cons c l ih =>
    rw [List.map_cons]
    unfold effectsOutsideLock
    rw [ih]
    rfl

theorem effectsUnderLock_writes (l : List Connection) :
    effectsUnderLock true (l.map (fun c => MutexEvent.write c.Conn) ++ [MutexEvent.unlock])
      = true := by
  induction l with
  | nil => rfl
  | cons c l ih =>
    rw [List.map_cons, List.cons_append]
    unfold effectsUnderLock
    rw [ih]
    rfl

theorem foldl_writeTraced (fails : Nat → Bool) (msg : Payload) (l : List Connection)
    (s : Server) (ev : List MutexEvent) :
    l.foldl (fun t c => writeTraced fails msg t c.Conn) (s, ev)
      = (l.foldl (fun s c => writeJSON fails msg s c.Conn) s,
          ev ++ l.map (fun c => MutexEvent.write c.Conn)) := by
  induction l generalizing s ev with
  | nil => simp
  | cons c l ih =>
    have step : writeTraced fails msg (s, ev) c.Conn
        = (writeJSON fails msg s c.Conn, ev ++ [MutexEvent.write c.Conn]) := rfl
    rw [List.foldl_cons, List.foldl_cons, step, ih]
    simp

theorem foldl_writeTraced_exclude (fails : Nat → Bool) (msg : Payload)
    (exclude : Option Connection) (l : List Connection) (s : Server) (ev : List MutexEvent) :
    l.foldl (fun t c => if some c ≠ exclude then writeTraced fails msg t c.Conn else t) (s, ev)
      = (l.foldl (fun s c => if some c ≠ exclude then writeJSON fails msg s c.Conn else s) s,
          ev ++ (l.filter (fun c => decide (some c ≠ exclude))).map
            (fun c => MutexEvent.write c.Conn)) := by
  induction l generalizing s ev with
  | nil => simp
  | cons c l ih =>
    rw [List.foldl_cons, List.foldl_cons]
    by_cases h : some c ≠ exclude
    · have step : writeTraced fails msg (s, ev) c.Conn
          = (writeJSON fails msg s c.Conn, ev ++ [MutexEvent.write c.Conn]) := rfl
      rw [if_pos h, if_pos h, List.filter_cons_of_pos (by simpa using h), step, ih]
      simp
    · rw [if_neg h, if_neg h, List.filter_cons_of_neg (by simpa using h)]
      exact ih s ev

/-- Run statement by statement, `BroadcastGlobal` ends in the state of the plain function
and records exactly the events of `BroadcastGlobalEvents`. -/
theorem BroadcastGlobalTraced_eq (fails : Nat → Bool) (msg : Payload) (s : Server) :
    BroadcastGlobalTraced fails msg s = (BroadcastGlobal fails msg s, BroadcastGlobalEvents s) := by
  unfold BroadcastGlobalTraced BroadcastGlobal BroadcastGlobalEvents lockMutex unlockMutex
  simp only
  rw [foldl_writeTraced]
  simp

/-- Run statement by statement, `BroadcastToRoom` ends in the state of the plain function
and records exactly the events of `BroadcastToRoomEvents`. -/
theorem BroadcastToRoomTraced_eq (fails : Nat → Bool) (roomID : Int) (msg : Payload)
    (exclude : Option Connection) (s : Server) :
    BroadcastToRoomTraced fails roomID msg exclude s
      = (BroadcastToRoom fails roomID msg exclude s, BroadcastToRoomEvents roomID exclude s) := by
  unfold BroadcastToRoomTraced BroadcastToRoom BroadcastToRoomEvents lockMutex unlockMutex
  simp only
  rw [foldl_writeTraced_exclude]
  simp

/-- Run statement by statement, `DisconnectExistingNotifyConnection` ends in the state of
the plain function and records exactly the events of
`DisconnectExistingNotifyConnectionEvents`. -/
theorem DisconnectExistingNotifyConnectionTraced_eq (userID : Int) (s : Server) :
    DisconnectExistingNotifyConnectionTraced userID s
      = (DisconnectExistingNotifyConnection userID s,
          DisconnectExistingNotifyConnectionEvents userID s) := by
  unfold DisconnectExistingNotifyConnectionTraced DisconnectExistingNotifyConnection
    DisconnectExistingNotifyConnectionEvents lockMutex unlockMutex
  simp only
  cases s.globalConns.find? (fun c => decide (c.UserID = userID)) with
  | none => simp
  | some c => simp

/-- The lock discipline of the three functions for every state: `BroadcastToRoom`
releases `connMutex` before its first write and writes with it released;
`BroadcastGlobal` does every write, and `DisconnectExistingNotifyConnection` its close,
with `connMutex` held, and releases it on return. -/
theorem registry_lock_discipline (fails : Nat → Bool) (msg : Payload) (roomID userID : Int)
    (exclude : Option Connection) (s : Server) :
    effectsOutsideLock false (BroadcastToRoomTraced fails roomID msg exclude s).2 = true ∧
    effectsUnderLock false (BroadcastGlobalTraced fails msg s).2 = true ∧
    effectsUnderLock false (DisconnectExistingNotifyConnectionTraced userID s).2 = true := by
  rw [BroadcastToRoomTraced_eq, BroadcastGlobalTraced_eq,
    DisconnectExistingNotifyConnectionTraced_eq]
  refine ⟨?_, ?_, ?_⟩
  · unfold BroadcastToRoomEvents
    exact effectsOutsideLock_writes _
  · unfold BroadcastGlobalEvents
    exact effectsUnderLock_writes s.globalConns
  · unfold DisconnectExistingNotifyConnectionEvents
    cases s.globalConns.find? (fun c => decide (c.UserID = userID)) with
    | none => rfl
    | some c => rfl

/-- C18 (the code at the failing input): `globalConns` holds handles 1 and 2 and no write
fails.  `BroadcastGlobal` locks `connMutex`, writes to handle 1 and to handle 2, and only
then unlocks: both writes happen while the mutex is held, where the claim says after it
has been released.  `DisconnectExistingNotifyConnection(7)` closes handle 1 inside the
same kind of critical section.  `BroadcastToRoom` does what the claim says on two room
sessions: it unlocks before the first write. -/
theorem global_effects_under_lock :
    (BroadcastGlobalTraced (fun _ => false) (Payload.json GoMap.empty) sampleGlobalServer).2
      = [MutexEvent.lock, MutexEvent.write 1, MutexEvent.write 2, MutexEvent.unlock] ∧
    effectsOutsideLock false
      (BroadcastGlobalTraced (fun _ => false) (Payload.json GoMap.empty) sampleGlobalServer).2
      = false ∧
    (BroadcastGlobalTraced (fun _ => false) (Payload.json GoMap.empty) sampleGlobalServer).1.sent
      = [(1, Payload.json GoMap.empty), (2, Payload.json GoMap.empty)] ∧
    (DisconnectExistingNotifyConnectionTraced 7 sampleGlobalServer).2
      = [MutexEvent.lock, MutexEvent.close 1, MutexEvent.unlock] ∧
    (BroadcastToRoomTraced (fun _ => false) 3 (Payload.json GoMap.empty) none
        sampleRoomServer).2
      = [MutexEvent.lock, MutexEvent.unlock, MutexEvent.write 1, MutexEvent.write 2] ∧
    effectsOutsideLock false (BroadcastToRoomTraced (fun _ => false) 3
      (Payload.json GoMap.empty) none sampleRoomServer).2 = true := by
  decide

end Chat
